import Mathlib

/-!
# Verification of the kumiko-designer geometry engine

Shallow embedding of the geometry engine of the kumiko-designer
repository (`src/geometry/triangle.ts`, `src/geometry/clipping.ts`, the
two evolutions of `src/geometry/segments.ts`, and the panel compositor),
together with theorems settling the specification claims.

Floating-point numbers are modelled as exact elements of a linear ordered
field: the square-root/trigonometry-free parts (all of `clipping.ts`,
the linear vector algebra) are stated over an arbitrary
`LinearOrderedField K` so concrete computations can be carried out over
`ℚ` by `decide`; the parts that use `Math.sqrt` / `Math.cos` / `Math.sin`
/ `Math.atan2` are stated over `ℝ` with `Real.sqrt`, `Real.cos`,
`Real.sin` and `Complex.arg`.
-/

namespace Kumiko

/-- `Point {x, y}` from `types/index.ts`, generic in the coordinate field. -/
structure Point (K : Type) where
  x : K
  y : K
deriving DecidableEq, Repr

attribute [ext] Point

/-- `Triangle` from `types/index.ts`: vertices `A B C`, stored centroid,
orientation flag. -/
structure Triangle (K : Type) where
  A : Point K
  B : Point K
  C : Point K
  centroid : Point K
  isUpPointing : Bool
deriving DecidableEq, Repr

/-- The corner names `'A' | 'B' | 'C'`. -/
inductive Corner where
  | A | B | C
deriving DecidableEq, Repr

/-- The edge names `'AB' | 'BC' | 'CA'`. -/
inductive Edge where
  | AB | BC | CA
deriving DecidableEq, Repr

variable {K : Type} [LinearOrderedField K]

/-- `add` from `triangle.ts`. -/
def add (p1 p2 : Point K) : Point K := ⟨p1.x + p2.x, p1.y + p2.y⟩

/-- `subtract` from `triangle.ts` (`p1 - p2`). -/
def subtract (p1 p2 : Point K) : Point K := ⟨p1.x - p2.x, p1.y - p2.y⟩

/-- `scale` from `triangle.ts`. -/
def scale (p : Point K) (factor : K) : Point K := ⟨p.x * factor, p.y * factor⟩

/-- `midpoint` from `triangle.ts`. -/
def midpoint (p1 p2 : Point K) : Point K := ⟨(p1.x + p2.x) / 2, (p1.y + p2.y) / 2⟩

/-- `centroid` from `triangle.ts`. -/
def centroid (A B C : Point K) : Point K :=
  ⟨(A.x + B.x + C.x) / 3, (A.y + B.y + C.y) / 3⟩

/-- `perpendicular` from `triangle.ts` (rotate 90 degrees counterclockwise). -/
def perpendicular (v : Point K) : Point K := ⟨-v.y, v.x⟩

/-- `getEdgeVertices` from `triangle.ts`. -/
def getEdgeVertices (tri : Triangle K) (edge : Edge) : Point K × Point K :=
  match edge with
  | .AB => (tri.A, tri.B)
  | .BC => (tri.B, tri.C)
  | .CA => (tri.C, tri.A)

/-- `getOppositeCorner` from `triangle.ts`. -/
def getOppositeCorner (edge : Edge) : Corner :=
  match edge with
  | .BC => .A
  | .CA => .B
  | .AB => .C

/-- `getOppositeEdge` from `triangle.ts`. -/
def getOppositeEdge (corner : Corner) : Edge :=
  match corner with
  | .A => .BC
  | .B => .CA
  | .C => .AB

/-- `getCornerPoint` from `triangle.ts`. -/
def getCornerPoint (tri : Triangle K) (corner : Corner) : Point K :=
  match corner with
  | .A => tri.A
  | .B => tri.B
  | .C => tri.C

/-- `pointInTriangle` from `triangle.ts`: sign-of-cross-product test,
boundary inclusive. The identical local copy in the panel compositor is
shared with this definition. -/
def pointInTriangle (p : Point K) (tri : Triangle K) : Bool :=
  let sign := fun (p1 p2 p3 : Point K) =>
    (p1.x - p3.x) * (p2.y - p3.y) - (p2.x - p3.x) * (p1.y - p3.y)
  let d1 := sign p tri.A tri.B
  let d2 := sign p tri.B tri.C
  let d3 := sign p tri.C tri.A
  let hasNeg := d1 < 0 || d2 < 0 || d3 < 0
  let hasPos := d1 > 0 || d2 > 0 || d3 > 0
  !(hasNeg && hasPos)

/-! ## `clipping.ts` -/

/-- `lineLineIntersection` from `clipping.ts`, verbatim: note the
parameter is `t = (d3 × d2) / cross` with `d3 = p1 - p3` (the companion
`segmentLineIntersection` in the same file negates this quantity). -/
def lineLineIntersection (p1 p2 p3 p4 : Point K) : Option (Point K) :=
  let d1 := subtract p2 p1
  let d2 := subtract p4 p3
  let d3 := subtract p1 p3
  let cross := d1.x * d2.y - d1.y * d2.x
  if |cross| < 1 / 10000000000 then none
  else
    let t := (d3.x * d2.y - d3.y * d2.x) / cross
    some ⟨p1.x + t * d1.x, p1.y + t * d1.y⟩

/-- `lineSide` from `clipping.ts`. -/
def lineSide (lineStart lineEnd point : Point K) : K :=
  (lineEnd.x - lineStart.x) * (point.y - lineStart.y) -
    (lineEnd.y - lineStart.y) * (point.x - lineStart.x)

/-- One iteration of the inner Sutherland-Hodgman loop shared by
`clipPolygonToTriangle` and `clipPolygonToRect`: the points pushed for a
`(current, next)` pair against one clip edge. -/
def shStep (clipStart clipEnd current next : Point K) : List (Point K) :=
  let currentInside := lineSide clipStart clipEnd current ≥ 0
  let nextInside := lineSide clipStart clipEnd next ≥ 0
  if currentInside then
    if nextInside then [current]
    else
      match lineLineIntersection current next clipStart clipEnd with
      | some intersection => [current, intersection]
      | none => [current]
  else if nextInside then
    match lineLineIntersection current next clipStart clipEnd with
    | some intersection => [intersection]
    | none => []
  else []

/-- One full Sutherland-Hodgman pass against a single clip edge: the
source iterates `i` over the input with `next = input[(i+1) % length]`,
which is exactly `input` zipped with its rotation by one. -/
def shPass (clipStart clipEnd : Point K) (inputList : List (Point K)) : List (Point K) :=
  ((inputList.zip (inputList.rotateLeft 1)).map
    (fun cn => shStep clipStart clipEnd cn.1 cn.2)).flatten

/-- `clipPolygonToTriangle` from `clipping.ts`. -/
def clipPolygonToTriangle (polygon : List (Point K)) (tri : Triangle K) : List (Point K) :=
  [(tri.A, tri.B), (tri.B, tri.C), (tri.C, tri.A)].foldl
    (fun outputList ce =>
      if outputList.isEmpty then outputList
      else shPass ce.1 ce.2 outputList)
    polygon

/-- `clipPolygonToRect` from `clipping.ts`: Sutherland-Hodgman with the
four rectangle edges (bottom, right, top, left). -/
def clipPolygonToRect (polygon : List (Point K)) (minX minY maxX maxY : K) :
    List (Point K) :=
  [((⟨minX, minY⟩ : Point K), (⟨maxX, minY⟩ : Point K)),
   (⟨maxX, minY⟩, ⟨maxX, maxY⟩),
   (⟨maxX, maxY⟩, ⟨minX, maxY⟩),
   (⟨minX, maxY⟩, ⟨minX, minY⟩)].foldl
    (fun outputList ce =>
      if outputList.isEmpty then outputList
      else shPass ce.1 ce.2 outputList)
    polygon

/-- The Cohen-Sutherland outcode of `clipLineToRect`, modelled as one
boolean per bit (`LEFT = 1`, `RIGHT = 2`, `BOTTOM = 4`, `TOP = 8`). -/
structure OutCode where
  left : Bool
  right : Bool
  bottom : Bool
  top : Bool
deriving DecidableEq, Repr

/-- Bitwise or of two outcodes (`code0 | code1`). -/
def OutCode.or (a b : OutCode) : OutCode :=
  ⟨a.left || b.left, a.right || b.right, a.bottom || b.bottom, a.top || b.top⟩

/-- Bitwise and of two outcodes (`code0 & code1`). -/
def OutCode.and (a b : OutCode) : OutCode :=
  ⟨a.left && b.left, a.right && b.right, a.bottom && b.bottom, a.top && b.top⟩

/-- `code === 0`. -/
def OutCode.isZero (c : OutCode) : Bool :=
  !c.left && !c.right && !c.bottom && !c.top

/-- `computeCode` from `clipLineToRect`: note the `else if` chains, which
make `RIGHT` (resp. `TOP`) depend on `LEFT` (resp. `BOTTOM`) being unset. -/
def computeCode (minX minY maxX maxY : K) (p : Point K) : OutCode where
  left := decide (p.x < minX)
  right := decide (¬p.x < minX ∧ maxX < p.x)
  bottom := decide (p.y < minY)
  top := decide (¬p.y < minY ∧ maxY < p.y)

/-- The `while (true)` loop of `clipLineToRect` (Cohen-Sutherland), with
explicit fuel. `none` means the fuel ran out (never happens for a
well-formed rectangle, see the termination theorem); `some none` is the
source's `return null`; `some (some (s, e))` the accepted segment. -/
def csLoop (minX minY maxX maxY : K) :
    Nat → Point K → Point K → Option (Option (Point K × Point K))
  | 0, _, _ => none
  | fuel + 1, p0, p1 =>
    let code0 := computeCode minX minY maxX maxY p0
    let code1 := computeCode minX minY maxX maxY p1
    if (code0.or code1).isZero then some (some (p0, p1))
    else if !(code0.and code1).isZero then some none
    else
      let codeOut := if !code0.isZero then code0 else code1
      let q : Point K :=
        if codeOut.top then
          ⟨p0.x + (p1.x - p0.x) * (maxY - p0.y) / (p1.y - p0.y), maxY⟩
        else if codeOut.bottom then
          ⟨p0.x + (p1.x - p0.x) * (minY - p0.y) / (p1.y - p0.y), minY⟩
        else if codeOut.right then
          ⟨maxX, p0.y + (p1.y - p0.y) * (maxX - p0.x) / (p1.x - p0.x)⟩
        else
          ⟨minX, p0.y + (p1.y - p0.y) * (minX - p0.x) / (p1.x - p0.x)⟩
      if codeOut = code0 then csLoop minX minY maxX maxY fuel q p1
      else csLoop minX minY maxX maxY fuel p0 q

/-- `clipLineToRect` from `clipping.ts`. Fuel 5 is sufficient for every
well-formed rectangle (termination theorem below); on a malformed
rectangle running out of fuel is mapped to `none`, like a trivial reject. -/
def clipLineToRect (start stop : Point K) (minX minY maxX maxY : K) :
    Option (Point K × Point K) :=
  (csLoop minX minY maxX maxY 5 start stop).join

/-- Termination measure for the Cohen-Sutherland loop: the number of
rectangle boundaries that some endpoint of the current segment still
violates, counted pairwise. Each clipping iteration pins the clipped
endpoint onto the violated boundary and keeps every already-satisfied
pairwise bound (the new endpoint is a convex combination of the old
ones), so this strictly decreases; it is at most 4. -/
def csMeasure (minX minY maxX maxY : K) (p0 p1 : Point K) : ℕ :=
  (if minX ≤ p0.x ∧ minX ≤ p1.x then 0 else 1) +
  (if p0.x ≤ maxX ∧ p1.x ≤ maxX then 0 else 1) +
  (if minY ≤ p0.y ∧ minY ≤ p1.y then 0 else 1) +
  (if p0.y ≤ maxY ∧ p1.y ≤ maxY then 0 else 1)

/-! ## `triangle.ts`: the functions using `Math.sqrt` / trigonometry -/

/-- `triangleHeight` from `triangle.ts`. -/
noncomputable def triangleHeight (edgeLength : ℝ) : ℝ :=
  edgeLength * (Real.sqrt 3 / 2)

/-- `distance` from `triangle.ts`. -/
noncomputable def distance (p1 p2 : Point ℝ) : ℝ :=
  Real.sqrt ((p2.x - p1.x) * (p2.x - p1.x) + (p2.y - p1.y) * (p2.y - p1.y))

/-- `normalize` from `triangle.ts`: the zero vector normalizes to itself. -/
noncomputable def normalize (v : Point ℝ) : Point ℝ :=
  let len := Real.sqrt (v.x * v.x + v.y * v.y)
  if len = 0 then ⟨0, 0⟩ else ⟨v.x / len, v.y / len⟩

/-- `rotatePoint` from `triangle.ts` (angle in radians). -/
noncomputable def rotatePoint (point origin : Point ℝ) (angle : ℝ) : Point ℝ :=
  let c := Real.cos angle
  let s := Real.sin angle
  let dx := point.x - origin.x
  let dy := point.y - origin.y
  ⟨origin.x + dx * c - dy * s, origin.y + dx * s + dy * c⟩

/-- The rotation argument type `0 | 120 | 240`. -/
inductive Rotation where
  | r0 | r120 | r240
deriving DecidableEq, Repr

/-- The numeric degree value of a `Rotation`. -/
def Rotation.degrees : Rotation → ℝ
  | .r0 => 0
  | .r120 => 120
  | .r240 => 240

/-- `rotateTriangle` from `triangle.ts`: early return at 0 degrees,
otherwise rotate all three vertices about the stored centroid. -/
noncomputable def rotateTriangle (tri : Triangle ℝ) (degrees : Rotation) : Triangle ℝ :=
  match degrees with
  | .r0 => tri
  | d =>
    let angle := d.degrees * Real.pi / 180
    let c := tri.centroid
    { A := rotatePoint tri.A c angle
      B := rotatePoint tri.B c angle
      C := rotatePoint tri.C c angle
      centroid := c
      isUpPointing := tri.isUpPointing }

/-- `getTriangleForCell` from `triangle.ts`. -/
noncomputable def getTriangleForCell (row col : ℕ) (edgeLength : ℝ)
    (originX originY : ℝ) : Triangle ℝ :=
  let h := triangleHeight edgeLength
  let halfEdge := edgeLength / 2
  let isUpPointing : Bool := (row + col) % 2 == 0
  let baseX := originX + (col : ℝ) * halfEdge
  let baseY := originY + (row : ℝ) * h
  let A : Point ℝ :=
    if isUpPointing then ⟨baseX + halfEdge, baseY⟩ else ⟨baseX + halfEdge, baseY + h⟩
  let B : Point ℝ := if isUpPointing then ⟨baseX, baseY + h⟩ else ⟨baseX, baseY⟩
  let C : Point ℝ :=
    if isUpPointing then ⟨baseX + edgeLength, baseY + h⟩ else ⟨baseX + edgeLength, baseY⟩
  ⟨A, B, C, centroid A B C, isUpPointing⟩

/-- `calculateGridDimensions` from `triangle.ts`. -/
noncomputable def calculateGridDimensions (panelWidthMm panelHeightMm triangleSizeMm : ℝ) :
    ℤ × ℤ :=
  let h := triangleHeight triangleSizeMm
  let halfEdge := triangleSizeMm / 2
  (⌈panelHeightMm / h⌉ + 1, ⌈panelWidthMm / halfEdge⌉ + 1)

/-! ## Pattern and output types (`types/index.ts`)

Only the fields consumed by the geometry engine are modelled (the
metadata fields `name`, `description`, `tags`, timestamps and
`isBuiltIn` play no geometric role). -/

/-- `CornerToCenterConfig.blockedBy`: `'edgeParallel' | null`. -/
inductive BlockedBy where
  | edgeParallel
deriving DecidableEq, Repr

/-- `CornerToCenterConfig.startSide`. -/
inductive StartSide where
  | corner | center
deriving DecidableEq, Repr

/-- `CornerToCenterConfig` from `types/index.ts`. -/
structure CornerToCenterConfig where
  weightMultiplier : ℝ
  blockedBy : Option BlockedBy
  startSide : StartSide

/-- `EdgeParallelConfig.positionMode`. -/
inductive PositionMode where
  | fromEdge | fromCorner
deriving DecidableEq, Repr

/-- `EdgeParallelConfig` from `types/index.ts`. -/
structure EdgeParallelConfig where
  positionMode : PositionMode
  distance : ℝ
  weightMultiplier : ℝ
  isBlocker : Bool

/-- `ArcConfig` from `types/index.ts`. -/
structure ArcConfig where
  radius : ℝ
  weightMultiplier : ℝ

/-- `Pattern` from `types/index.ts`, restricted to its geometric fields;
the `{A, B, C}` / `{BC, CA, AB}` records are modelled as functions from
the key enums. -/
structure Pattern where
  id : String
  baseWeight : ℝ
  cornerToCenter : Corner → Option CornerToCenterConfig
  edgeParallel : Edge → Option EdgeParallelConfig
  cornerArcs : Edge → Option ArcConfig

/-- `LineSegment` from `types/index.ts`, with the optional
`startIntersectWeight` / `endIntersectWeight` fields attached by the
line-variant generator. The source's `end` field is called `stop` here
because `end` is a Lean keyword. -/
structure LineSegment where
  start : Point ℝ
  stop : Point ℝ
  weight : ℝ
  startIntersectWeight : Option ℝ := none
  endIntersectWeight : Option ℝ := none

/-- `ArcSegment` from `types/index.ts`. -/
structure ArcSegment where
  center : Point ℝ
  radius : ℝ
  startAngle : ℝ
  endAngle : ℝ
  weight : ℝ

/-- `Polygon` from `types/index.ts`. -/
structure Polygon where
  points : List (Point ℝ)
  weight : ℝ

/-- `RenderedSegments` from `types/index.ts`. -/
structure RenderedSegments where
  lines : List LineSegment
  arcs : List ArcSegment
  polygons : List Polygon

/-- `Math.atan2 y x` with JavaScript semantics (range `(-π, π]`,
`atan2 0 0 = 0`), via the complex argument. -/
noncomputable def atan2 (y x : ℝ) : ℝ := Complex.arg ⟨x, y⟩

/-! ## `calculateInwardArc` and `generateCornerArcs`

These two functions are textually identical in both evolutions of
`segments.ts`, so they are defined once and shared. The source's
`calculateInwardArc` is typed `... | null` but has no `return null`
path, so it is modelled as total. Its intermediate values are split
into named definitions so the theorems can speak about them. -/

/-- The clamped radius of `calculateInwardArc`:
`if (radius < d / 2) radius = d / 2 + 0.001`. -/
noncomputable def inwardArcRadius (p1 p2 : Point ℝ) (radius : ℝ) : ℝ :=
  let d := distance p1 p2
  if radius < d / 2 then d / 2 + 1 / 1000 else radius

/-- `h = Math.sqrt(radius * radius - (d / 2) * (d / 2))` with the
clamped radius. -/
noncomputable def inwardArcH (p1 p2 : Point ℝ) (radius : ℝ) : ℝ :=
  let d := distance p1 p2
  let r := inwardArcRadius p1 p2 radius
  Real.sqrt (r * r - d / 2 * (d / 2))

/-- `center1 = add(mid, scale(perp, h))`. -/
noncomputable def inwardArcCenter1 (p1 p2 : Point ℝ) (radius : ℝ) : Point ℝ :=
  add (midpoint p1 p2) (scale (perpendicular (normalize (subtract p2 p1))) (inwardArcH p1 p2 radius))

/-- `center2 = add(mid, scale(perp, -h))`. -/
noncomputable def inwardArcCenter2 (p1 p2 : Point ℝ) (radius : ℝ) : Point ℝ :=
  add (midpoint p1 p2) (scale (perpendicular (normalize (subtract p2 p1))) (-inwardArcH p1 p2 radius))

/-- The center selection: the candidate farther from `bulgeToward`
(ties go to `center2`). -/
noncomputable def inwardArcCenter (p1 p2 : Point ℝ) (radius : ℝ) (bulgeToward : Point ℝ) :
    Point ℝ :=
  let center1 := inwardArcCenter1 p1 p2 radius
  let center2 := inwardArcCenter2 p1 p2 radius
  if distance center1 bulgeToward > distance center2 bulgeToward then center1 else center2

/-- The result record of `calculateInwardArc`. -/
structure InwardArcData where
  center : Point ℝ
  radius : ℝ
  startAngle : ℝ
  endAngle : ℝ

/-- `calculateInwardArc` from `segments.ts` (both variants). -/
noncomputable def calculateInwardArc (p1 p2 : Point ℝ) (radius : ℝ) (bulgeToward : Point ℝ) :
    InwardArcData :=
  let center := inwardArcCenter p1 p2 radius bulgeToward
  { center := center
    radius := inwardArcRadius p1 p2 radius
    startAngle := atan2 (p1.y - center.y) (p1.x - center.x)
    endAngle := atan2 (p2.y - center.y) (p2.x - center.x) }

/-- `generateCornerArcs` from `segments.ts` (both variants). -/
noncomputable def generateCornerArcs (pattern : Pattern) (tri : Triangle ℝ) : List ArcSegment :=
  [(Edge.AB, (Corner.A, Corner.B)), (Edge.BC, (Corner.B, Corner.C)),
   (Edge.CA, (Corner.C, Corner.A))].filterMap
    (fun ec =>
      match pattern.cornerArcs ec.1 with
      | none => none
      | some config =>
        let weight := pattern.baseWeight * config.weightMultiplier
        let p1 := getCornerPoint tri ec.2.1
        let p2 := getCornerPoint tri ec.2.2
        let arcData := calculateInwardArc p1 p2 config.radius tri.centroid
        some { center := arcData.center, radius := arcData.radius,
               startAngle := arcData.startAngle, endAngle := arcData.endAngle,
               weight := weight })

/-- The arc start point a renderer draws for an `InwardArcData`,
per the §6 interface contract: `center + radius·(cos startAngle, sin startAngle)`. -/
noncomputable def arcStartPoint (arc : InwardArcData) : Point ℝ :=
  ⟨arc.center.x + arc.radius * Real.cos arc.startAngle,
   arc.center.y + arc.radius * Real.sin arc.startAngle⟩

/-- The arc end point a renderer draws for an `InwardArcData` (§6). -/
noncomputable def arcEndPoint (arc : InwardArcData) : Point ℝ :=
  ⟨arc.center.x + arc.radius * Real.cos arc.endAngle,
   arc.center.y + arc.radius * Real.sin arc.endAngle⟩

namespace SegmentsLine

/-!
### `src/geometry/segments.ts` (line-rendering variant)

Edge-parallel segments are emitted as weighted lines; the loop bodies of
the source are factored into per-edge / per-corner step functions (the
source accumulates into arrays in the same order).
-/

/-- `BlockerInfo` from the line variant: centerline plus half width. -/
structure BlockerInfo where
  corner : Corner
  line : Point ℝ × Point ℝ
  halfWidth : ℝ

/-- `EdgeParallelResult` from the line variant. -/
structure EdgeParallelResult where
  lines : List LineSegment
  blockerInfo : List BlockerInfo

/-- `edgeDir = normalize(subtract(edgeP2, edgeP1))`. -/
noncomputable def epEdgeDir (tri : Triangle ℝ) (edge : Edge) : Point ℝ :=
  let ep := getEdgeVertices tri edge
  normalize (subtract ep.2 ep.1)

/-- `perpToEdge`, flipped so it points toward the near corner. -/
noncomputable def epPerpToEdge (tri : Triangle ℝ) (edge : Edge) (corner : Corner) : Point ℝ :=
  let ep := getEdgeVertices tri edge
  let toCorner := subtract (getCornerPoint tri corner) ep.1
  let perp := perpendicular (epEdgeDir tri edge)
  if perp.x * toCorner.x + perp.y * toCorner.y < 0 then scale perp (-1) else perp

/-- `altitudeLength = Math.abs(toCorner · perpToEdge)`. -/
noncomputable def epAltitude (tri : Triangle ℝ) (edge : Edge) (corner : Corner) : ℝ :=
  let ep := getEdgeVertices tri edge
  let toCorner := subtract (getCornerPoint tri corner) ep.1
  let p := epPerpToEdge tri edge corner
  |toCorner.x * p.x + toCorner.y * p.y|

/-- `distFromEdge`: `config.distance` in `from-edge` mode,
`altitude - config.distance` in `from-corner` mode. -/
noncomputable def epDistFromEdge (config : EdgeParallelConfig) (tri : Triangle ℝ)
    (edge : Edge) (corner : Corner) : ℝ :=
  match config.positionMode with
  | .fromCorner => epAltitude tri edge corner - config.distance
  | .fromEdge => config.distance

/-- One iteration of the edge-parallel loop of the line variant: the
emitted line (if any) together with the recorded blocker (if any). -/
noncomputable def edgeParallelStep (pattern : Pattern) (tri : Triangle ℝ) (edgeWeight : ℝ)
    (edge : Edge) (corner : Corner) : Option (LineSegment × Option BlockerInfo) :=
  match pattern.edgeParallel edge with
  | none => none
  | some config =>
    let weight := pattern.baseWeight * config.weightMultiplier
    let distFromEdge := epDistFromEdge config tri edge corner
    let altitudeLength := epAltitude tri edge corner
    if distFromEdge ≤ 0 ∨ distFromEdge ≥ altitudeLength then none
    else
      let ep := getEdgeVertices tri edge
      let edgeMid := midpoint ep.1 ep.2
      let linePoint := add edgeMid (scale (epPerpToEdge tri edge corner) distFromEdge)
      let edgeDir := epEdgeDir tri edge
      let adj : (Point ℝ × Point ℝ) × (Point ℝ × Point ℝ) :=
        match edge with
        | .BC => ((tri.A, tri.B), (tri.C, tri.A))
        | .CA => ((tri.A, tri.B), (tri.B, tri.C))
        | .AB => ((tri.B, tri.C), (tri.C, tri.A))
      match lineLineIntersection linePoint (add linePoint edgeDir) adj.1.1 adj.1.2,
            lineLineIntersection linePoint (add linePoint edgeDir) adj.2.1 adj.2.2 with
      | some int1, some int2 =>
        some ({ start := int1, stop := int2, weight := weight,
                startIntersectWeight := some edgeWeight,
                endIntersectWeight := some edgeWeight },
              if config.isBlocker then
                some { corner := corner, line := (int1, int2), halfWidth := weight / 2 }
              else none)
      | _, _ => none

/-- `generateEdgeParallelSegments` from the line variant. -/
noncomputable def generateEdgeParallelSegments (pattern : Pattern) (tri : Triangle ℝ)
    (edgeWeight : ℝ) : EdgeParallelResult :=
  let steps := [(Edge.BC, Corner.A), (Edge.CA, Corner.B), (Edge.AB, Corner.C)].map
    (fun ec => edgeParallelStep pattern tri edgeWeight ec.1 ec.2)
  { lines := steps.filterMap (fun s => s.map Prod.fst)
    blockerInfo := steps.filterMap (fun s => s.bind Prod.snd) }

/-- One iteration of the corner-to-center loop of the line variant. -/
noncomputable def cornerToCenterStep (pattern : Pattern) (tri : Triangle ℝ)
    (blockers : List BlockerInfo) (edgeWeight avgCenterWeight : ℝ) (corner : Corner) :
    Option LineSegment :=
  match pattern.cornerToCenter corner with
  | none => none
  | some config =>
    let weight := pattern.baseWeight * config.weightMultiplier
    let cornerPoint := getCornerPoint tri corner
    let centerPoint := tri.centroid
    let unblocked : LineSegment :=
      { start := cornerPoint, stop := centerPoint, weight := weight,
        startIntersectWeight := some edgeWeight,
        endIntersectWeight := some avgCenterWeight }
    if config.blockedBy = some .edgeParallel then
      match blockers.find? (fun b => b.corner == corner) with
      | some blocker =>
        match lineLineIntersection cornerPoint centerPoint blocker.line.1 blocker.line.2 with
        | some intersection =>
          let dir := normalize (subtract centerPoint cornerPoint)
          match config.startSide with
          | .center =>
            some { start := add intersection (scale dir blocker.halfWidth),
                   stop := centerPoint, weight := weight,
                   startIntersectWeight := some (blocker.halfWidth * 2),
                   endIntersectWeight := some avgCenterWeight }
          | .corner =>
            some { start := cornerPoint,
                   stop := add intersection (scale dir (-blocker.halfWidth)),
                   weight := weight,
                   startIntersectWeight := some edgeWeight,
                   endIntersectWeight := some (blocker.halfWidth * 2) }
        | none => some unblocked
      | none => some unblocked
    else some unblocked

/-- `generateCornerToCenterSegments` from the line variant, including the
`avgCenterWeight` computation. -/
noncomputable def generateCornerToCenterSegments (pattern : Pattern) (tri : Triangle ℝ)
    (blockers : List BlockerInfo) (edgeWeight : ℝ) : List LineSegment :=
  let centerWeights :=
    ([Corner.A, Corner.B, Corner.C].filterMap pattern.cornerToCenter).map
      (fun config => pattern.baseWeight * config.weightMultiplier)
  let avgCenterWeight :=
    if centerWeights.length > 0 then centerWeights.sum / (centerWeights.length : ℝ) else 0
  [Corner.A, Corner.B, Corner.C].filterMap
    (cornerToCenterStep pattern tri blockers edgeWeight avgCenterWeight)

/-- `generatePatternSegments` from the line variant
(`edgeWeight` defaults to `0.8` at the call sites that omit it). -/
noncomputable def generatePatternSegments (pattern : Pattern) (triangle : Triangle ℝ)
    (rotation : Rotation) (edgeWeight : ℝ) : RenderedSegments :=
  let tri := rotateTriangle triangle rotation
  let edgeParallelResult := generateEdgeParallelSegments pattern tri edgeWeight
  let cornerToCenterLines :=
    generateCornerToCenterSegments pattern tri edgeParallelResult.blockerInfo edgeWeight
  { lines := edgeParallelResult.lines ++ cornerToCenterLines
    arcs := generateCornerArcs pattern tri
    polygons := [] }

/-- `generateTriangleEdges` from `segments.ts`. -/
def generateTriangleEdges (tri : Triangle ℝ) (weight : ℝ) : List LineSegment :=
  [{ start := tri.A, stop := tri.B, weight := weight },
   { start := tri.B, stop := tri.C, weight := weight },
   { start := tri.C, stop := tri.A, weight := weight }]

end SegmentsLine

namespace SegmentsPoly

/-!
### The trapezoid-polygon variant of `segments.ts`

Edge-parallel segments are emitted as clipped rectangle polygons; the
blocker records the outer and inner band edges.
-/

/-- `BlockerInfo` from the polygon variant. -/
structure BlockerInfo where
  corner : Corner
  outerEdge : Point ℝ × Point ℝ
  innerEdge : Point ℝ × Point ℝ

/-- `EdgeParallelResult` from the polygon variant. -/
structure EdgeParallelResult where
  polygons : List Polygon
  blockerInfo : List BlockerInfo

/-- One iteration of the edge-parallel loop of the polygon variant. -/
noncomputable def edgeParallelStep (pattern : Pattern) (tri : Triangle ℝ)
    (edge : Edge) (nearCorner : Corner) : Option (Polygon × Option BlockerInfo) :=
  match pattern.edgeParallel edge with
  | none => none
  | some config =>
    let weight := pattern.baseWeight * config.weightMultiplier
    let ep := getEdgeVertices tri edge
    let cornerPoint := getCornerPoint tri nearCorner
    let edgeVec := normalize (subtract ep.2 ep.1)
    let toCorner := subtract cornerPoint (midpoint ep.1 ep.2)
    let perp0 := perpendicular edgeVec
    let perpDir :=
      if toCorner.x * perp0.x + toCorner.y * perp0.y < 0 then scale perp0 (-1) else perp0
    let parallelDistance :=
      match config.positionMode with
      | .fromCorner => config.distance
      | .fromEdge => distance cornerPoint (midpoint ep.1 ep.2) - config.distance
    let centerLineStart := add cornerPoint (scale perpDir (-parallelDistance))
    let centerLineEnd := add centerLineStart (scale edgeVec (distance ep.1 ep.2 * 2))
    let centerLineStart2 := subtract centerLineStart (scale edgeVec (distance ep.1 ep.2))
    let halfWeight := weight / 2
    let offsetOuter := scale perpDir halfWeight
    let offsetInner := scale perpDir (-halfWeight)
    let rectPoints : List (Point ℝ) :=
      [add centerLineStart2 offsetOuter, add centerLineEnd offsetOuter,
       add centerLineEnd offsetInner, add centerLineStart2 offsetInner]
    let clippedPolygon := clipPolygonToTriangle rectPoints tri
    if clippedPolygon.length ≥ 3 then
      some ({ points := clippedPolygon, weight := weight },
        if config.isBlocker then
          some { corner := nearCorner,
                 outerEdge := (add centerLineStart2 offsetOuter, add centerLineEnd offsetOuter),
                 innerEdge := (add centerLineStart2 offsetInner, add centerLineEnd offsetInner) }
        else none)
    else none

/-- `generateEdgeParallelSegments` from the polygon variant. -/
noncomputable def generateEdgeParallelSegments (pattern : Pattern) (tri : Triangle ℝ) :
    EdgeParallelResult :=
  let steps := [(Edge.BC, Corner.A), (Edge.CA, Corner.B), (Edge.AB, Corner.C)].map
    (fun ec => edgeParallelStep pattern tri ec.1 ec.2)
  { polygons := steps.filterMap (fun s => s.map Prod.fst)
    blockerInfo := steps.filterMap (fun s => s.bind Prod.snd) }

/-- One iteration of the corner-to-center loop of the polygon variant. -/
noncomputable def cornerToCenterStep (pattern : Pattern) (tri : Triangle ℝ)
    (blockers : List BlockerInfo) (corner : Corner) : Option LineSegment :=
  match pattern.cornerToCenter corner with
  | none => none
  | some config =>
    let weight := pattern.baseWeight * config.weightMultiplier
    let cornerPoint := getCornerPoint tri corner
    let centerPoint := tri.centroid
    let unblocked : LineSegment := { start := cornerPoint, stop := centerPoint, weight := weight }
    if config.blockedBy = some .edgeParallel then
      match blockers.find? (fun b => b.corner == corner) with
      | some blocker =>
        match config.startSide with
        | .center =>
          match lineLineIntersection cornerPoint centerPoint
              blocker.innerEdge.1 blocker.innerEdge.2 with
          | some intersection =>
            some { start := intersection, stop := centerPoint, weight := weight }
          | none => some unblocked
        | .corner =>
          match lineLineIntersection cornerPoint centerPoint
              blocker.outerEdge.1 blocker.outerEdge.2 with
          | some intersection =>
            some { start := cornerPoint, stop := intersection, weight := weight }
          | none => some unblocked
      | none => some unblocked
    else some unblocked

/-- `generateCornerToCenterSegments` from the polygon variant. -/
noncomputable def generateCornerToCenterSegments (pattern : Pattern) (tri : Triangle ℝ)
    (blockers : List BlockerInfo) : List LineSegment :=
  [Corner.A, Corner.B, Corner.C].filterMap (cornerToCenterStep pattern tri blockers)

/-- `generatePatternSegments` from the polygon variant. -/
noncomputable def generatePatternSegments (pattern : Pattern) (triangle : Triangle ℝ)
    (rotation : Rotation) : RenderedSegments :=
  let tri := rotateTriangle triangle rotation
  let edgeParallelGeometry := generateEdgeParallelSegments pattern tri
  let cornerToCenterLines :=
    generateCornerToCenterSegments pattern tri edgeParallelGeometry.blockerInfo
  { lines := cornerToCenterLines
    arcs := generateCornerArcs pattern tri
    polygons := edgeParallelGeometry.polygons }

end SegmentsPoly

namespace PanelGeom

/-!
### The panel compositor (`panelGeometry.ts`)

`generatePanelGeometry` iterates the over-covering grid, resolves each
cell's pattern and rotation, runs the line-variant segment generator,
clips to panel bounds and deduplicates shared triangle edges.
-/

/-- `CellConfig` from `types/index.ts`. -/
structure CellConfig where
  patternId : String
  rotation : Rotation

/-- `Panel` from `types/index.ts`, restricted to the fields the
compositor reads. The sparse record keyed by the string `"row,col"` is
modelled as a function on the `(row, col)` pair (the key template is
injective on pairs of naturals). -/
structure Panel where
  widthMm : ℝ
  heightMm : ℝ
  triangleSizeMm : ℝ
  defaultPatternId : String
  cells : ℕ × ℕ → Option CellConfig

/-- `lineIntersectsRect` from the panel compositor. -/
noncomputable def lineIntersectsRect (p1 p2 : Point ℝ) (minX minY maxX maxY : ℝ) : Bool :=
  if (p1.x < minX ∧ p2.x < minX) ∨ (maxX < p1.x ∧ maxX < p2.x) then false
  else if (p1.y < minY ∧ p2.y < minY) ∨ (maxY < p1.y ∧ maxY < p2.y) then false
  else if minX ≤ p1.x ∧ p1.x ≤ maxX ∧ minY ≤ p1.y ∧ p1.y ≤ maxY then true
  else if minX ≤ p2.x ∧ p2.x ≤ maxX ∧ minY ≤ p2.y ∧ p2.y ≤ maxY then true
  else (clipLineToRect p1 p2 minX minY maxX maxY).isSome

/-- `triangleIntersectsRect` from the panel compositor (the local
`pointInTriangle` copy there is identical to the shared one). -/
noncomputable def triangleIntersectsRect (tri : Triangle ℝ) (minX minY maxX maxY : ℝ) : Bool :=
  if [tri.A, tri.B, tri.C].any
      (fun p => decide (minX ≤ p.x ∧ p.x ≤ maxX ∧ minY ≤ p.y ∧ p.y ≤ maxY)) then true
  else
    let rectCenter : Point ℝ := ⟨(minX + maxX) / 2, (minY + maxY) / 2⟩
    if pointInTriangle rectCenter tri then true
    else
      [(tri.A, tri.B), (tri.B, tri.C), (tri.C, tri.A)].any
        (fun e => lineIntersectsRect e.1 e.2 minX minY maxX maxY)

/-- The `toFixed(4)` rounding used by `edgeToKey`, modelled as rounding
to an integer count of `10⁻⁴` units. -/
noncomputable def roundKey (v : ℝ) : ℤ := ⌊v * 10000 + 1 / 2⌋

/-- `edgeToKey`: an order-independent key from the rounded endpoint
coordinates. The source normalizes by comparing the two formatted
coordinate strings; here the rounded coordinate pairs are compared
lexicographically — an order-independent normalization either way. -/
noncomputable def edgeToKey (p1 p2 : Point ℝ) : (ℤ × ℤ) × (ℤ × ℤ) :=
  let k1 := (roundKey p1.x, roundKey p1.y)
  let k2 := (roundKey p2.x, roundKey p2.y)
  if k1.1 < k2.1 ∨ (k1.1 = k2.1 ∧ k1.2 < k2.2) then (k1, k2) else (k2, k1)

/-- `clipAndAddSegments` from the panel compositor: clip lines and
polygons to panel bounds, keep arcs subject to the bounding-margin test,
appending everything to `result`. -/
noncomputable def clipAndAddSegments (segments result : RenderedSegments) (panel : Panel) :
    RenderedSegments :=
  { lines := result.lines ++ segments.lines.filterMap (fun line =>
      (clipLineToRect line.start line.stop 0 0 panel.widthMm panel.heightMm).map
        (fun c => { start := c.1, stop := c.2, weight := line.weight }))
    polygons := result.polygons ++ segments.polygons.filterMap (fun poly =>
      let clipped := clipPolygonToRect poly.points 0 0 panel.widthMm panel.heightMm
      if clipped.length ≥ 3 then some { points := clipped, weight := poly.weight } else none)
    arcs := result.arcs ++ segments.arcs.filter (fun arc =>
      let margin := arc.radius + 10
      decide (-margin ≤ arc.center.x ∧ arc.center.x ≤ panel.widthMm + margin ∧
        -margin ≤ arc.center.y ∧ arc.center.y ≤ panel.heightMm + margin)) }

/-- The per-cell pattern/rotation resolution of `generatePanelGeometry`:
`patterns.find(p => p.id === cellConfig.patternId) || defaultPattern`
and `cellConfig?.rotation || 0`. -/
def resolveCell (patterns : List Pattern) (defaultPattern : Pattern)
    (cellConfig : Option CellConfig) : Pattern × Rotation :=
  match cellConfig with
  | some cfg => ((patterns.find? (fun p => p.id == cfg.patternId)).getD defaultPattern,
                 cfg.rotation)
  | none => (defaultPattern, .r0)

/-- The loop body of `generatePanelGeometry` for one grid cell,
threading the accumulated `RenderedSegments` and the `drawnEdges`
deduplication set (modelled as a list of keys). -/
noncomputable def cellStep (panel : Panel) (patterns : List Pattern) (defaultPattern : Pattern)
    (acc : RenderedSegments × List ((ℤ × ℤ) × (ℤ × ℤ))) (rc : ℕ × ℕ) :
    RenderedSegments × List ((ℤ × ℤ) × (ℤ × ℤ)) :=
  let tri := getTriangleForCell rc.1 rc.2 panel.triangleSizeMm 0 0
  if !triangleIntersectsRect tri 0 0 panel.widthMm panel.heightMm then acc
  else
    let pr := resolveCell patterns defaultPattern (panel.cells rc)
    let segments := SegmentsLine.generatePatternSegments pr.1 tri pr.2 (8 / 10)
    let result1 := clipAndAddSegments segments acc.1 panel
    (SegmentsLine.generateTriangleEdges tri pr.1.baseWeight).foldl
      (fun st edge =>
        let key := edgeToKey edge.start edge.stop
        if key ∈ st.2 then st
        else
          match clipLineToRect edge.start edge.stop 0 0 panel.widthMm panel.heightMm with
          | some c =>
            let seg : LineSegment := { start := c.1, stop := c.2, weight := edge.weight }
            ({ st.1 with lines := st.1.lines ++ [seg] }, key :: st.2)
          | none => (st.1, key :: st.2))
      (result1, acc.2)

/-- `generatePanelGeometry` from the panel compositor. -/
noncomputable def generatePanelGeometry (panel : Panel) (patterns : List Pattern) :
    RenderedSegments :=
  let dims := calculateGridDimensions panel.widthMm panel.heightMm panel.triangleSizeMm
  match patterns.find? (fun p => p.id == panel.defaultPatternId) with
  | none => { lines := [], arcs := [], polygons := [] }
  | some defaultPattern =>
    let cellList := (List.range dims.1.toNat).flatMap
      (fun row => (List.range dims.2.toNat).map (fun col => (row, col)))
    (cellList.foldl (cellStep panel patterns defaultPattern)
      ({ lines := [], arcs := [], polygons := [] }, [])).1

end PanelGeom

/-! ## Concrete instances used by the theorems below -/

/-- A triangle with the `A`-apex over the horizontal edge `BC`
(the vertex order whose winding `clipPolygonToTriangle` treats as
"interior on the inside"); centroid `(5, 8/3) = (A + B + C) / 3`. -/
noncomputable def sampleTriangle : Triangle ℝ :=
  { A := ⟨5, 8⟩, B := ⟨0, 0⟩, C := ⟨10, 0⟩, centroid := ⟨5, 8 / 3⟩, isUpPointing := false }

/-- An edge-parallel config whose `from-edge` distance is negative, so
`distFromEdge = -1 ≤ 0` (geometrically invalid). -/
def invalidEdgeParallelPattern : Pattern :=
  { id := "invalid-ep", baseWeight := 1
    cornerToCenter := fun _ => none
    edgeParallel := fun e =>
      match e with
      | .BC => some { positionMode := .fromEdge, distance := -1,
                      weightMultiplier := 1, isBlocker := true }
      | _ => none
    cornerArcs := fun _ => none }

/-- An edge-parallel config in `from-corner` mode at distance 0 from the
corner: the spec-level offset is `distFromEdge = altitude - 0 = altitude`,
which is `≥ altitude` and hence geometrically invalid. -/
def cornerZeroEdgeParallelPattern : Pattern :=
  { id := "corner-zero-ep", baseWeight := 2
    cornerToCenter := fun _ => none
    edgeParallel := fun e =>
      match e with
      | .BC => some { positionMode := .fromCorner, distance := 0,
                      weightMultiplier := 1, isBlocker := true }
      | _ => none
    cornerArcs := fun _ => none }

/-- A pattern with a valid edge-parallel blocker on `BC` (6 mm from the
edge, inside the altitude 8 of `sampleTriangle`) and a corner-to-center
line on `A` blocked by it, keeping the center side. -/
def blockedCornerPattern : Pattern :=
  { id := "blocked-corner", baseWeight := 1
    cornerToCenter := fun c =>
      match c with
      | .A => some { weightMultiplier := 1, blockedBy := some .edgeParallel,
                     startSide := .center }
      | _ => none
    edgeParallel := fun e =>
      match e with
      | .BC => some { positionMode := .fromEdge, distance := 6,
                      weightMultiplier := 1, isBlocker := true }
      | _ => none
    cornerArcs := fun _ => none }

/-- The Asanoha configuration of the §8 end-to-end scenario: all three
corner-to-center slots enabled and unblocked, everything else off. -/
def asanohaPattern : Pattern :=
  { id := "asanoha", baseWeight := 1
    cornerToCenter := fun _ =>
      some { weightMultiplier := 1, blockedBy := none, startSide := .corner }
    edgeParallel := fun _ => none
    cornerArcs := fun _ => none }

/-- The canonical 15 mm triangle of the §8 scenarios:
`A = (7.5, 0)`, `B = (0, 12.99)`, `C = (15, 12.99)`,
centroid `(7.5, 8.66)` (exactly `(A + B + C) / 3`). -/
noncomputable def canonicalTriangle : Triangle ℝ :=
  { A := ⟨15 / 2, 0⟩, B := ⟨0, 1299 / 100⟩, C := ⟨15, 1299 / 100⟩,
    centroid := ⟨15 / 2, 433 / 50⟩, isUpPointing := true }

/-- A pattern with no geometry (all nine slots `null`). -/
def emptyPattern : Pattern :=
  { id := "default", baseWeight := 1
    cornerToCenter := fun _ => none
    edgeParallel := fun _ => none
    cornerArcs := fun _ => none }

/-- A panel whose `defaultPatternId` matches no pattern. -/
def orphanPanel : PanelGeom.Panel :=
  { widthMm := 10, heightMm := 10, triangleSizeMm := 5,
    defaultPatternId := "missing", cells := fun _ => none }

/-- A panel whose cell (0,0) overrides with an unknown pattern id and
rotation 120, while the default pattern id resolves. -/
def ghostCellPanel : PanelGeom.Panel :=
  { widthMm := 10, heightMm := 10, triangleSizeMm := 10,
    defaultPatternId := "default",
    cells := fun rc => if rc = (0, 0) then some ⟨"ghost", .r120⟩ else none }

/-! ## Supporting lemmas -/

theorem mem_of_rotateLeft {α : Type} {l : List α} {a : α} {n : ℕ}
    (h : a ∈ l.rotateLeft n) : a ∈ l := by
  simp only [List.rotateLeft] at h
  split at h
  · exact h
  · rcases List.mem_append.1 h with h' | h'
    · exact List.mem_of_mem_drop h'
    · exact List.mem_of_mem_take h'

theorem length_rotateLeft {α : Type} (l : List α) (n : ℕ) :
    (l.rotateLeft n).length = l.length := by
  simp only [List.rotateLeft]
  split
  · rfl
  · simp only [List.length_append, List.length_drop, List.length_take]
    omega

/-- A Sutherland-Hodgman step keeps exactly the current vertex when both
ends of the pair are inside. -/
theorem shStep_in_in {cs ce cur nxt : Point K} (h1 : 0 ≤ lineSide cs ce cur)
    (h2 : 0 ≤ lineSide cs ce nxt) : shStep cs ce cur nxt = [cur] := by
  unfold shStep
  rw [if_pos h1, if_pos h2]

/-- A Sutherland-Hodgman step emits nothing when both ends of the pair
are strictly outside. -/
theorem shStep_out_out {cs ce cur nxt : Point K} (h1 : lineSide cs ce cur < 0)
    (h2 : lineSide cs ce nxt < 0) : shStep cs ce cur nxt = [] := by
  unfold shStep
  rw [if_neg (not_le.mpr h1), if_neg (not_le.mpr h2)]

theorem flatten_map_singleton {α β : Type} (l : List α) (f : α → β) :
    (l.map (fun a => [f a])).flatten = l.map f := by
  induction l with
  | nil => rfl
  | cons a l ih => simp [ih]

/-- A full clip pass over a polygon whose vertices are all inside the
half-plane returns the polygon unchanged. -/
theorem shPass_all_inside (cs ce : Point K) (poly : List (Point K))
    (h : ∀ p ∈ poly, 0 ≤ lineSide cs ce p) : shPass cs ce poly = poly := by
  unfold shPass
  have hstep : ∀ cn ∈ poly.zip (poly.rotateLeft 1), shStep cs ce cn.1 cn.2 = [cn.1] := by
    intro cn hcn
    have hm := List.of_mem_zip hcn
    exact shStep_in_in (h _ hm.1) (h _ (mem_of_rotateLeft hm.2))
  rw [List.map_congr_left hstep, flatten_map_singleton]
  exact List.map_fst_zip _ _ (le_of_eq (length_rotateLeft poly 1).symm)

/-- A full clip pass over a polygon whose vertices are all strictly
outside the half-plane returns the empty list. -/
theorem shPass_all_outside (cs ce : Point K) (poly : List (Point K))
    (h : ∀ p ∈ poly, lineSide cs ce p < 0) : shPass cs ce poly = [] := by
  unfold shPass
  have hstep : ∀ cn ∈ poly.zip (poly.rotateLeft 1), shStep cs ce cn.1 cn.2 = [] := by
    intro cn hcn
    have hm := List.of_mem_zip hcn
    exact shStep_out_out (h _ hm.1) (h _ (mem_of_rotateLeft hm.2))
  rw [List.map_congr_left hstep]
  simp

/-- A Sutherland-Hodgman step on an exiting pair (current inside, next
strictly outside) pushes the current vertex and the computed crossing. -/
theorem shStep_in_out {cs ce cur nxt q : Point K} (h1 : 0 ≤ lineSide cs ce cur)
    (h2 : lineSide cs ce nxt < 0) (hq : lineLineIntersection cur nxt cs ce = some q) :
    shStep cs ce cur nxt = [cur, q] := by
  unfold shStep
  rw [if_pos h1, if_neg (not_le.mpr h2), hq]

/-- A Sutherland-Hodgman step on an entering pair (current strictly
outside, next inside) pushes only the computed crossing. -/
theorem shStep_out_in {cs ce cur nxt q : Point K} (h1 : lineSide cs ce cur < 0)
    (h2 : 0 ≤ lineSide cs ce nxt) (hq : lineLineIntersection cur nxt cs ce = some q) :
    shStep cs ce cur nxt = [q] := by
  unfold shStep
  rw [if_neg (not_le.mpr h1), if_pos h2, hq]

/-- Unfolding a clip pass over a 3-vertex polygon. -/
theorem shPass_three (cs ce p1 p2 p3 : Point K) :
    shPass cs ce [p1, p2, p3] =
      shStep cs ce p1 p2 ++ (shStep cs ce p2 p3 ++ (shStep cs ce p3 p1 ++ [])) := rfl

/-- Unfolding a clip pass over a 4-vertex polygon. -/
theorem shPass_four (cs ce p1 p2 p3 p4 : Point K) :
    shPass cs ce [p1, p2, p3, p4] =
      shStep cs ce p1 p2 ++
        (shStep cs ce p2 p3 ++ (shStep cs ce p3 p4 ++ (shStep cs ce p4 p1 ++ []))) := rfl

/-- Evaluation rule for `lineLineIntersection` in the non-parallel case,
with the coordinates of the produced point given explicitly. -/
theorem lineLineIntersection_eq_some {p1 p2 p3 p4 q : Point K}
    (hcross : ¬|(p2.x - p1.x) * (p4.y - p3.y) - (p2.y - p1.y) * (p4.x - p3.x)| <
      1 / 10000000000)
    (hx : q.x = p1.x + ((p1.x - p3.x) * (p4.y - p3.y) - (p1.y - p3.y) * (p4.x - p3.x)) /
      ((p2.x - p1.x) * (p4.y - p3.y) - (p2.y - p1.y) * (p4.x - p3.x)) * (p2.x - p1.x))
    (hy : q.y = p1.y + ((p1.x - p3.x) * (p4.y - p3.y) - (p1.y - p3.y) * (p4.x - p3.x)) /
      ((p2.x - p1.x) * (p4.y - p3.y) - (p2.y - p1.y) * (p4.x - p3.x)) * (p2.y - p1.y)) :
    lineLineIntersection p1 p2 p3 p4 = some q := by
  unfold lineLineIntersection subtract
  dsimp only
  rw [if_neg hcross]
  exact congrArg some (Point.ext hx.symm hy.symm)

/-- The Sutherland-Hodgman edge fold fixes a polygon each of whose
passes fixes it. -/
theorem clipFold_id (edges : List (Point K × Point K)) (poly : List (Point K))
    (h : ∀ e ∈ edges, shPass e.1 e.2 poly = poly) :
    edges.foldl
      (fun outputList ce =>
        if outputList.isEmpty then outputList else shPass ce.1 ce.2 outputList)
      poly = poly := by
  induction edges with
  | nil => rfl
  | cons e es ih =>
    rw [List.foldl_cons]
    by_cases hp : poly.isEmpty
    · rw [if_pos hp]
      exact ih fun e' he' => h e' (List.mem_cons_of_mem _ he')
    · rw [if_neg hp, h e (List.mem_cons_self e es)]
      exact ih fun e' he' => h e' (List.mem_cons_of_mem _ he')

/-- The Sutherland-Hodgman edge fold maps the empty polygon to itself. -/
theorem clipFold_nil (edges : List (Point K × Point K)) :
    edges.foldl
      (fun outputList ce =>
        if outputList.isEmpty then outputList else shPass ce.1 ce.2 outputList)
      [] = [] := by
  induction edges with
  | nil => rfl
  | cons e es ih =>
    rw [List.foldl_cons]
    simpa using ih

/-- Composing two rotations about the same origin adds the angles. -/
theorem rotatePoint_rotatePoint (p o : Point ℝ) (a b : ℝ) :
    rotatePoint (rotatePoint p o a) o b = rotatePoint p o (a + b) := by
  simp only [rotatePoint, Real.cos_add, Real.sin_add, Point.mk.injEq]
  constructor <;> ring

/-- A full revolution about any origin is the identity. -/
theorem rotatePoint_two_pi (p o : Point ℝ) : rotatePoint p o (2 * Real.pi) = p := by
  simp only [rotatePoint, Real.cos_two_pi, Real.sin_two_pi]
  ext <;> dsimp <;> ring

theorem ite_ind_le {P Q : Prop} [Decidable P] [Decidable Q] (h : P → Q) :
    (if Q then 0 else 1) ≤ if P then (0 : ℕ) else 1 := by
  by_cases hp : P
  · rw [if_pos hp, if_pos (h hp)]
  · rw [if_neg hp]
    split_ifs <;> omega

theorem between_le {a b t m : K} (ht0 : 0 ≤ t) (ht1 : t ≤ 1) (ha : m ≤ a) (hb : m ≤ b) :
    m ≤ a + (b - a) * t := by
  nlinarith [mul_nonneg (sub_nonneg.2 ht1) (sub_nonneg.2 ha),
    mul_nonneg ht0 (sub_nonneg.2 hb)]

theorem between_ge {a b t m : K} (ht0 : 0 ≤ t) (ht1 : t ≤ 1) (ha : a ≤ m) (hb : b ≤ m) :
    a + (b - a) * t ≤ m := by
  nlinarith [mul_nonneg (sub_nonneg.2 ht1) (sub_nonneg.2 ha),
    mul_nonneg ht0 (sub_nonneg.2 hb)]

theorem unit_div_of_neg {num den : K} (hden : den < 0) (h1 : num ≤ 0) (h2 : den ≤ num) :
    0 ≤ num / den ∧ num / den ≤ 1 := by
  constructor
  · rw [div_nonneg_iff]
    exact Or.inr ⟨h1, hden.le⟩
  · rw [div_le_one_iff]
    exact Or.inr (Or.inr ⟨hden, h2⟩)

theorem unit_div_of_pos {num den : K} (hden : 0 < den) (h1 : 0 ≤ num) (h2 : num ≤ den) :
    0 ≤ num / den ∧ num / den ≤ 1 :=
  ⟨div_nonneg h1 hden.le, (div_le_one hden).mpr h2⟩

/-- One clipping iteration strictly decreases `csMeasure`: all pairwise
bounds are preserved and at least one previously violated bound becomes
satisfied. -/
theorem csMeasure_lt_of_clip {minX minY maxX maxY : K} {p0 p1 q0 q1 : Point K}
    (hL : minX ≤ p0.x ∧ minX ≤ p1.x → minX ≤ q0.x ∧ minX ≤ q1.x)
    (hR : p0.x ≤ maxX ∧ p1.x ≤ maxX → q0.x ≤ maxX ∧ q1.x ≤ maxX)
    (hB : minY ≤ p0.y ∧ minY ≤ p1.y → minY ≤ q0.y ∧ minY ≤ q1.y)
    (hT : p0.y ≤ maxY ∧ p1.y ≤ maxY → q0.y ≤ maxY ∧ q1.y ≤ maxY)
    (hnew :
      ((minX ≤ q0.x ∧ minX ≤ q1.x) ∧ ¬(minX ≤ p0.x ∧ minX ≤ p1.x)) ∨
      ((q0.x ≤ maxX ∧ q1.x ≤ maxX) ∧ ¬(p0.x ≤ maxX ∧ p1.x ≤ maxX)) ∨
      ((minY ≤ q0.y ∧ minY ≤ q1.y) ∧ ¬(minY ≤ p0.y ∧ minY ≤ p1.y)) ∨
      ((q0.y ≤ maxY ∧ q1.y ≤ maxY) ∧ ¬(p0.y ≤ maxY ∧ p1.y ≤ maxY))) :
    csMeasure minX minY maxX maxY q0 q1 < csMeasure minX minY maxX maxY p0 p1 := by
  have l1 := ite_ind_le hL
  have l2 := ite_ind_le hR
  have l3 := ite_ind_le hB
  have l4 := ite_ind_le hT
  unfold csMeasure
  rcases hnew with ⟨hq, hp⟩ | ⟨hq, hp⟩ | ⟨hq, hp⟩ | ⟨hq, hp⟩ <;>
    rw [if_pos hq, if_neg hp] <;> omega

theorem computeCode_left_iff {minX minY maxX maxY : K} (p : Point K) :
    (computeCode minX minY maxX maxY p).left = true ↔ p.x < minX := by
  simp [computeCode]

theorem computeCode_bottom_iff {minX minY maxX maxY : K} (p : Point K) :
    (computeCode minX minY maxX maxY p).bottom = true ↔ p.y < minY := by
  simp [computeCode]

theorem computeCode_right_iff {minX minY maxX maxY : K} (hx : minX ≤ maxX) (p : Point K) :
    (computeCode minX minY maxX maxY p).right = true ↔ maxX < p.x := by
  simp only [computeCode, decide_eq_true_eq]
  exact ⟨fun h => h.2, fun h => ⟨not_lt.2 (hx.trans h.le), h⟩⟩

theorem computeCode_top_iff {minX minY maxX maxY : K} (hy : minY ≤ maxY) (p : Point K) :
    (computeCode minX minY maxX maxY p).top = true ↔ maxY < p.y := by
  simp only [computeCode, decide_eq_true_eq]
  exact ⟨fun h => h.2, fun h => ⟨not_lt.2 (hy.trans h.le), h⟩⟩

theorem OutCode.isZero_iff {c : OutCode} :
    c.isZero = true ↔ c.left = false ∧ c.right = false ∧ c.bottom = false ∧ c.top = false := by
  simp [OutCode.isZero, Bool.and_eq_true, Bool.not_eq_true']
  tauto

theorem OutCode.or_isZero_iff {a b : OutCode} :
    (a.or b).isZero = true ↔ a.isZero = true ∧ b.isZero = true := by
  simp only [OutCode.or, OutCode.isZero, Bool.and_eq_true, Bool.not_eq_true',
    Bool.or_eq_false_iff]
  tauto

theorem OutCode.and_isZero_spec {a b : OutCode} (h : (a.and b).isZero = true) :
    (a.left = true → b.left = false) ∧ (a.right = true → b.right = false) ∧
    (a.bottom = true → b.bottom = false) ∧ (a.top = true → b.top = false) := by
  rw [OutCode.isZero_iff] at h
  obtain ⟨hl, hr, hb, ht⟩ := h
  simp only [OutCode.and] at hl hr hb ht
  exact ⟨fun h1 => by simpa [h1] using hl, fun h1 => by simpa [h1] using hr,
    fun h1 => by simpa [h1] using hb, fun h1 => by simpa [h1] using ht⟩

theorem computeCode_isZero_iff {minX minY maxX maxY : K} (hx : minX ≤ maxX)
    (hy : minY ≤ maxY) (p : Point K) :
    (computeCode minX minY maxX maxY p).isZero = true ↔
      minX ≤ p.x ∧ p.x ≤ maxX ∧ minY ≤ p.y ∧ p.y ≤ maxY := by
  rw [OutCode.isZero_iff]
  simp only [Bool.eq_false_iff, Ne, computeCode_left_iff, computeCode_right_iff hx,
    computeCode_bottom_iff, computeCode_top_iff hy, not_lt]

theorem csMeasure_le_four {minX minY maxX maxY : K} (p0 p1 : Point K) :
    csMeasure minX minY maxX maxY p0 p1 ≤ 4 := by
  unfold csMeasure
  split_ifs <;> omega

theorem csMeasure_eq_zero_of_codes_zero {minX minY maxX maxY : K} (hx : minX ≤ maxX)
    (hy : minY ≤ maxY) {p0 p1 : Point K}
    (hm : csMeasure minX minY maxX maxY p0 p1 = 0) :
    ((computeCode minX minY maxX maxY p0).or (computeCode minX minY maxX maxY p1)).isZero
      = true := by
  unfold csMeasure at hm
  split_ifs at hm with h1 h2 h3 h4 <;> try omega
  rw [OutCode.or_isZero_iff, computeCode_isZero_iff hx hy, computeCode_isZero_iff hx hy]
  exact ⟨⟨h1.1, h2.1, h3.1, h4.1⟩, ⟨h1.2, h2.2, h3.2, h4.2⟩⟩

/-- The Cohen-Sutherland loop returns within `measure + 1` iterations. -/
theorem csLoop_isSome {minX minY maxX maxY : K} (hx : minX ≤ maxX) (hy : minY ≤ maxY) :
    ∀ n p0 p1, csMeasure minX minY maxX maxY p0 p1 ≤ n →
      (csLoop minX minY maxX maxY (n + 1) p0 p1).isSome = true := by
  intro n
  induction n using Nat.strong_induction_on with
  | _ n ih =>
    intro p0 p1 hm
    simp only [csLoop]
    by_cases hz : ((computeCode minX minY maxX maxY p0).or
        (computeCode minX minY maxX maxY p1)).isZero = true
    · rw [if_pos hz]
      rfl
    · rw [if_neg hz]
      by_cases hshared : (!((computeCode minX minY maxX maxY p0).and
          (computeCode minX minY maxX maxY p1)).isZero) = true
      · rw [if_pos hshared]
        rfl
      · rw [if_neg hshared]
        have hand : ((computeCode minX minY maxX maxY p0).and
            (computeCode minX minY maxX maxY p1)).isZero = true := by
          rcases Bool.eq_false_or_eq_true ((computeCode minX minY maxX maxY p0).and
            (computeCode minX minY maxX maxY p1)).isZero with h | h
          · exact h
          · rw [h] at hshared
            simp at hshared
        have hspec := OutCode.and_isZero_spec hand
        have hm1 : 1 ≤ csMeasure minX minY maxX maxY p0 p1 := by
          rcases Nat.eq_zero_or_pos (csMeasure minX minY maxX maxY p0 p1) with h | h
          · exact absurd (csMeasure_eq_zero_of_codes_zero hx hy h) hz
          · exact h
        obtain ⟨m, rfl⟩ : ∃ m, n = m + 1 := ⟨n - 1, by omega⟩
        by_cases h0z : (computeCode minX minY maxX maxY p0).isZero = true
        · -- `codeOut = code1`: endpoint 1 is clipped
          have hc1f : (computeCode minX minY maxX maxY p0).isZero = false → False := by
            simp [h0z]
          simp only [h0z, Bool.not_true]
          rw [if_neg (show ¬(false = true) by simp)]
          have hne : ¬(computeCode minX minY maxX maxY p1) =
              (computeCode minX minY maxX maxY p0) := fun he =>
            hz (OutCode.or_isZero_iff.mpr ⟨h0z, he ▸ h0z⟩)
          rw [if_neg hne]
          have h0all := (computeCode_isZero_iff hx hy p0).mp h0z
          by_cases htop : (computeCode minX minY maxX maxY p1).top = true
          · rw [if_pos htop]
            have hp1 : maxY < p1.y := (computeCode_top_iff hy p1).mp htop
            have hp0 : p0.y ≤ maxY := h0all.2.2.2
            have hden : (0 : K) < p1.y - p0.y := by linarith
            have tb := unit_div_of_pos hden (by linarith : (0 : K) ≤ maxY - p0.y)
              (by linarith : maxY - p0.y ≤ p1.y - p0.y)
            have hqx : p0.x + (p1.x - p0.x) * (maxY - p0.y) / (p1.y - p0.y) =
                p0.x + (p1.x - p0.x) * ((maxY - p0.y) / (p1.y - p0.y)) := by
              rw [mul_div_assoc]
            refine ih m (by omega) p0 _ ?_
            have hlt := @csMeasure_lt_of_clip K _ minX minY maxX maxY p0 p1
              (p0)
              (⟨p0.x + (p1.x - p0.x) * (maxY - p0.y) / (p1.y - p0.y), maxY⟩)
              (fun hp => ⟨hp.1, by rw [hqx]; exact between_le tb.1 tb.2 hp.1 hp.2⟩)
              (fun hp => ⟨hp.1, by rw [hqx]; exact between_ge tb.1 tb.2 hp.1 hp.2⟩)
              (fun hp => ⟨hp.1, hy⟩)
              (fun hp => ⟨hp.1, le_refl maxY⟩)
              (Or.inr (Or.inr (Or.inr ⟨⟨hp0, le_refl maxY⟩,
                fun hc => absurd hp1 (not_lt.2 hc.2)⟩)))
            omega
          · rw [if_neg htop]
            by_cases hbot : (computeCode minX minY maxX maxY p1).bottom = true
            · rw [if_pos hbot]
              have hp1 : p1.y < minY := (computeCode_bottom_iff p1).mp hbot
              have hp0 : minY ≤ p0.y := h0all.2.2.1
              have hden : p1.y - p0.y < 0 := by linarith
              have tb := unit_div_of_neg hden (by linarith : minY - p0.y ≤ 0)
                (by linarith : p1.y - p0.y ≤ minY - p0.y)
              have hqx : p0.x + (p1.x - p0.x) * (minY - p0.y) / (p1.y - p0.y) =
                  p0.x + (p1.x - p0.x) * ((minY - p0.y) / (p1.y - p0.y)) := by
                rw [mul_div_assoc]
              refine ih m (by omega) p0 _ ?_
              have hlt := @csMeasure_lt_of_clip K _ minX minY maxX maxY p0 p1
                (p0)
                (⟨p0.x + (p1.x - p0.x) * (minY - p0.y) / (p1.y - p0.y), minY⟩)
                (fun hp => ⟨hp.1, by rw [hqx]; exact between_le tb.1 tb.2 hp.1 hp.2⟩)
                (fun hp => ⟨hp.1, by rw [hqx]; exact between_ge tb.1 tb.2 hp.1 hp.2⟩)
                (fun hp => ⟨hp.1, le_refl minY⟩)
                (fun hp => ⟨hp.1, hy⟩)
                (Or.inr (Or.inr (Or.inl ⟨⟨hp0, le_refl minY⟩,
                  fun hc => absurd hp1 (not_lt.2 hc.2)⟩)))
              omega
            · rw [if_neg hbot]
              by_cases hrt : (computeCode minX minY maxX maxY p1).right = true
              · rw [if_pos hrt]
                have hp1 : maxX < p1.x := (computeCode_right_iff hx p1).mp hrt
                have hp0 : p0.x ≤ maxX := h0all.2.1
                have hden : (0 : K) < p1.x - p0.x := by linarith
                have tb := unit_div_of_pos hden (by linarith : (0 : K) ≤ maxX - p0.x)
                  (by linarith : maxX - p0.x ≤ p1.x - p0.x)
                have hqy : p0.y + (p1.y - p0.y) * (maxX - p0.x) / (p1.x - p0.x) =
                    p0.y + (p1.y - p0.y) * ((maxX - p0.x) / (p1.x - p0.x)) := by
                  rw [mul_div_assoc]
                refine ih m (by omega) p0 _ ?_
                have hlt := @csMeasure_lt_of_clip K _ minX minY maxX maxY p0 p1
                  (p0)
                  (⟨maxX, p0.y + (p1.y - p0.y) * (maxX - p0.x) / (p1.x - p0.x)⟩)
                  (fun hp => ⟨hp.1, hx⟩)
                  (fun hp => ⟨hp.1, le_refl maxX⟩)
                  (fun hp => ⟨hp.1, by rw [hqy]; exact between_le tb.1 tb.2 hp.1 hp.2⟩)
                  (fun hp => ⟨hp.1, by rw [hqy]; exact between_ge tb.1 tb.2 hp.1 hp.2⟩)
                  (Or.inr (Or.inl ⟨⟨hp0, le_refl maxX⟩,
                    fun hc => absurd hp1 (not_lt.2 hc.2)⟩))
                omega
              · rw [if_neg hrt]
                have hlf : (computeCode minX minY maxX maxY p1).left = true := by
                  have h1nz : ¬(computeCode minX minY maxX maxY p1).isZero = true :=
                    fun h => hz (OutCode.or_isZero_iff.mpr ⟨h0z, h⟩)
                  rcases Bool.eq_false_or_eq_true
                      (computeCode minX minY maxX maxY p1).left with h | h
                  · exact h
                  · exact absurd (OutCode.isZero_iff.mpr
                      ⟨h, Bool.eq_false_iff.mpr (fun hc => hrt hc),
                       Bool.eq_false_iff.mpr (fun hc => hbot hc),
                       Bool.eq_false_iff.mpr (fun hc => htop hc)⟩) h1nz
                have hp1 : p1.x < minX := (computeCode_left_iff p1).mp hlf
                have hp0 : minX ≤ p0.x := h0all.1
                have hden : p1.x - p0.x < 0 := by linarith
                have tb := unit_div_of_neg hden (by linarith : minX - p0.x ≤ 0)
                  (by linarith : p1.x - p0.x ≤ minX - p0.x)
                have hqy : p0.y + (p1.y - p0.y) * (minX - p0.x) / (p1.x - p0.x) =
                    p0.y + (p1.y - p0.y) * ((minX - p0.x) / (p1.x - p0.x)) := by
                  rw [mul_div_assoc]
                refine ih m (by omega) p0 _ ?_
                have hlt := @csMeasure_lt_of_clip K _ minX minY maxX maxY p0 p1
                  (p0)
                  (⟨minX, p0.y + (p1.y - p0.y) * (minX - p0.x) / (p1.x - p0.x)⟩)
                  (fun hp => ⟨hp.1, le_refl minX⟩)
                  (fun hp => ⟨hp.1, hx⟩)
                  (fun hp => ⟨hp.1, by rw [hqy]; exact between_le tb.1 tb.2 hp.1 hp.2⟩)
                  (fun hp => ⟨hp.1, by rw [hqy]; exact between_ge tb.1 tb.2 hp.1 hp.2⟩)
                  (Or.inl ⟨⟨hp0, le_refl minX⟩, fun hc => absurd hp1 (not_lt.2 hc.2)⟩)
                omega
        · -- `codeOut = code0`: endpoint 0 is clipped
          have h0zf : (computeCode minX minY maxX maxY p0).isZero = false :=
            Bool.eq_false_iff.mpr h0z
          simp only [h0zf, Bool.not_false, eq_self_iff_true, if_true]
          by_cases htop : (computeCode minX minY maxX maxY p0).top = true
          · rw [if_pos htop]
            have hp0 : maxY < p0.y := (computeCode_top_iff hy p0).mp htop
            have hp1 : p1.y ≤ maxY := by
              have h1f := hspec.2.2.2 htop
              by_contra hcon
              rw [not_le] at hcon
              have this : (computeCode minX minY maxX maxY p1).top = true :=
                (computeCode_top_iff hy p1).mpr hcon
              rw [h1f] at this
              simp at this
            have hden : p1.y - p0.y < 0 := by linarith
            have tb := unit_div_of_neg hden (by linarith : maxY - p0.y ≤ 0)
              (by linarith : p1.y - p0.y ≤ maxY - p0.y)
            have hqx : p0.x + (p1.x - p0.x) * (maxY - p0.y) / (p1.y - p0.y) =
                p0.x + (p1.x - p0.x) * ((maxY - p0.y) / (p1.y - p0.y)) := by
              rw [mul_div_assoc]
            refine ih m (by omega) _ p1 ?_
            have hlt := @csMeasure_lt_of_clip K _ minX minY maxX maxY p0 p1
              (⟨p0.x + (p1.x - p0.x) * (maxY - p0.y) / (p1.y - p0.y), maxY⟩)
              (p1)
              (fun hp => ⟨by rw [hqx]; exact between_le tb.1 tb.2 hp.1 hp.2, hp.2⟩)
              (fun hp => ⟨by rw [hqx]; exact between_ge tb.1 tb.2 hp.1 hp.2, hp.2⟩)
              (fun hp => ⟨hy, hp.2⟩)
              (fun hp => ⟨le_refl maxY, hp.2⟩)
              (Or.inr (Or.inr (Or.inr ⟨⟨le_refl maxY, hp1⟩,
                fun hc => absurd hp0 (not_lt.2 hc.1)⟩)))
            omega
          · rw [if_neg htop]
            by_cases hbot : (computeCode minX minY maxX maxY p0).bottom = true
            · rw [if_pos hbot]
              have hp0 : p0.y < minY := (computeCode_bottom_iff p0).mp hbot
              have hp1 : minY ≤ p1.y := by
                have h1f := hspec.2.2.1 hbot
                by_contra hcon
                rw [not_le] at hcon
                have this : (computeCode minX minY maxX maxY p1).bottom = true :=
                  (computeCode_bottom_iff p1).mpr hcon
                rw [h1f] at this
                simp at this
              have hden : (0 : K) < p1.y - p0.y := by linarith
              have tb := unit_div_of_pos hden (by linarith : (0 : K) ≤ minY - p0.y)
                (by linarith : minY - p0.y ≤ p1.y - p0.y)
              have hqx : p0.x + (p1.x - p0.x) * (minY - p0.y) / (p1.y - p0.y) =
                  p0.x + (p1.x - p0.x) * ((minY - p0.y) / (p1.y - p0.y)) := by
                rw [mul_div_assoc]
              refine ih m (by omega) _ p1 ?_
              have hlt := @csMeasure_lt_of_clip K _ minX minY maxX maxY p0 p1
                (⟨p0.x + (p1.x - p0.x) * (minY - p0.y) / (p1.y - p0.y), minY⟩)
                (p1)
                (fun hp => ⟨by rw [hqx]; exact between_le tb.1 tb.2 hp.1 hp.2, hp.2⟩)
                (fun hp => ⟨by rw [hqx]; exact between_ge tb.1 tb.2 hp.1 hp.2, hp.2⟩)
                (fun hp => ⟨le_refl minY, hp.2⟩)
                (fun hp => ⟨hy, hp.2⟩)
                (Or.inr (Or.inr (Or.inl ⟨⟨le_refl minY, hp1⟩,
                  fun hc => absurd hp0 (not_lt.2 hc.1)⟩)))
              omega
            · rw [if_neg hbot]
              by_cases hrt : (computeCode minX minY maxX maxY p0).right = true
              · rw [if_pos hrt]
                have hp0 : maxX < p0.x := (computeCode_right_iff hx p0).mp hrt
                have hp1 : p1.x ≤ maxX := by
                  have h1f := hspec.2.1 hrt
                  by_contra hcon
                  rw [not_le] at hcon
                  have this : (computeCode minX minY maxX maxY p1).right = true :=
                    (computeCode_right_iff hx p1).mpr hcon
                  rw [h1f] at this
                  simp at this
                have hden : p1.x - p0.x < 0 := by linarith
                have tb := unit_div_of_neg hden (by linarith : maxX - p0.x ≤ 0)
                  (by linarith : p1.x - p0.x ≤ maxX - p0.x)
                have hqy : p0.y + (p1.y - p0.y) * (maxX - p0.x) / (p1.x - p0.x) =
                    p0.y + (p1.y - p0.y) * ((maxX - p0.x) / (p1.x - p0.x)) := by
                  rw [mul_div_assoc]
                refine ih m (by omega) _ p1 ?_
                have hlt := @csMeasure_lt_of_clip K _ minX minY maxX maxY p0 p1
                  (⟨maxX, p0.y + (p1.y - p0.y) * (maxX - p0.x) / (p1.x - p0.x)⟩)
                  (p1)
                  (fun hp => ⟨hx, hp.2⟩)
                  (fun hp => ⟨le_refl maxX, hp.2⟩)
                  (fun hp => ⟨by rw [hqy]; exact between_le tb.1 tb.2 hp.1 hp.2, hp.2⟩)
                  (fun hp => ⟨by rw [hqy]; exact between_ge tb.1 tb.2 hp.1 hp.2, hp.2⟩)
                  (Or.inr (Or.inl ⟨⟨le_refl maxX, hp1⟩,
                    fun hc => absurd hp0 (not_lt.2 hc.1)⟩))
                omega
              · rw [if_neg hrt]
                have hlf : (computeCode minX minY maxX maxY p0).left = true := by
                  rcases Bool.eq_false_or_eq_true
                      (computeCode minX minY maxX maxY p0).left with h | h
                  · exact h
                  · exact absurd (OutCode.isZero_iff.mpr
                      ⟨h, Bool.eq_false_iff.mpr (fun hc => hrt hc),
                       Bool.eq_false_iff.mpr (fun hc => hbot hc),
                       Bool.eq_false_iff.mpr (fun hc => htop hc)⟩) h0z
                have hp0 : p0.x < minX := (computeCode_left_iff p0).mp hlf
                have hp1 : minX ≤ p1.x := by
                  have h1f := hspec.1 hlf
                  by_contra hcon
                  rw [not_le] at hcon
                  have this : (computeCode minX minY maxX maxY p1).left = true :=
                    (computeCode_left_iff p1).mpr hcon
                  rw [h1f] at this
                  simp at this
                have hden : (0 : K) < p1.x - p0.x := by linarith
                have tb := unit_div_of_pos hden (by linarith : (0 : K) ≤ minX - p0.x)
                  (by linarith : minX - p0.x ≤ p1.x - p0.x)
                have hqy : p0.y + (p1.y - p0.y) * (minX - p0.x) / (p1.x - p0.x) =
                    p0.y + (p1.y - p0.y) * ((minX - p0.x) / (p1.x - p0.x)) := by
                  rw [mul_div_assoc]
                refine ih m (by omega) _ p1 ?_
                have hlt := @csMeasure_lt_of_clip K _ minX minY maxX maxY p0 p1
                  (⟨minX, p0.y + (p1.y - p0.y) * (minX - p0.x) / (p1.x - p0.x)⟩)
                  (p1)
                  (fun hp => ⟨le_refl minX, hp.2⟩)
                  (fun hp => ⟨hx, hp.2⟩)
                  (fun hp => ⟨by rw [hqy]; exact between_le tb.1 tb.2 hp.1 hp.2, hp.2⟩)
                  (fun hp => ⟨by rw [hqy]; exact between_ge tb.1 tb.2 hp.1 hp.2, hp.2⟩)
                  (Or.inl ⟨⟨le_refl minX, hp1⟩, fun hc => absurd hp0 (not_lt.2 hc.1)⟩)
                omega

/-- The distance from `c` to `p` is `r` when the squared distance is `r * r`. -/
theorem dist_eq_of_sq {c p : Point ℝ} {r : ℝ} (hr : 0 ≤ r)
    (h : (p.x - c.x) * (p.x - c.x) + (p.y - c.y) * (p.y - c.y) = r * r) :
    distance c p = r := by
  unfold distance
  rw [h]
  exact Real.sqrt_mul_self hr

theorem dist_eq_sqrt_of_sq {c p : Point ℝ} {v : ℝ}
    (h : (p.x - c.x) * (p.x - c.x) + (p.y - c.y) * (p.y - c.y) = v) :
    distance c p = Real.sqrt v := by
  unfold distance
  rw [h]

theorem arc_endpoint_eq {c p : Point ℝ} {r : ℝ} (hr : 0 < r) (hd : distance c p = r) :
    (⟨c.x + r * Real.cos (atan2 (p.y - c.y) (p.x - c.x)),
      c.y + r * Real.sin (atan2 (p.y - c.y) (p.x - c.x))⟩ : Point ℝ) = p := by
  have habs : Complex.abs ⟨p.x - c.x, p.y - c.y⟩ = r := by
    rw [Complex.abs_apply, Complex.normSq_mk]
    exact hd
  have hz : (⟨p.x - c.x, p.y - c.y⟩ : ℂ) ≠ 0 := by
    intro h
    rw [h] at habs
    simp at habs
    exact absurd habs.symm (ne_of_gt hr)
  unfold atan2
  ext
  · dsimp only
    rw [Complex.cos_arg hz, habs]
    dsimp only
    field_simp
  · dsimp only
    rw [Complex.sin_arg, habs]
    dsimp only
    field_simp

/-- `pointInTriangle` returns `true` when all three cross-product signs
are strictly negative (the point is strictly inside for that winding). -/
theorem pointInTriangle_of_all_neg {p : Point K} {tri : Triangle K}
    (h1 : (p.x - tri.B.x) * (tri.A.y - tri.B.y) -
      (tri.A.x - tri.B.x) * (p.y - tri.B.y) < 0)
    (h2 : (p.x - tri.C.x) * (tri.B.y - tri.C.y) -
      (tri.B.x - tri.C.x) * (p.y - tri.C.y) < 0)
    (h3 : (p.x - tri.A.x) * (tri.C.y - tri.A.y) -
      (tri.C.x - tri.A.x) * (p.y - tri.A.y) < 0) :
    pointInTriangle p tri = true := by
  unfold pointInTriangle
  simp only [h1, h2, h3, h1.asymm, h2.asymm, h3.asymm, gt_iff_lt]
  simp

/-! ## Claim theorems -/

/-- C4 (amended): for every radius and every pair of DISTINCT points
`p1 ≠ p2` at chord distance `d`, `calculateInwardArc` uses the clamped
effective radius (at least `d/2`), places the arc center equidistant from
`p1` and `p2` (on their perpendicular bisector) at distance
`√(r_eff² - (d/2)²)` from the midpoint, on the candidate side farther
from the bulge target, and the renderer-reconstructed arc endpoints equal
`p1` and `p2` exactly. -/
theorem C4_calculateInwardArc_spec (p1 p2 : Point ℝ) (radius : ℝ) (bulgeToward : Point ℝ) (hne : p1 ≠ p2) :
    distance p1 p2 / 2 ≤ (calculateInwardArc p1 p2 radius bulgeToward).radius ∧
    (calculateInwardArc p1 p2 radius bulgeToward).radius =
      (if radius < distance p1 p2 / 2 then distance p1 p2 / 2 + 1/1000 else radius) ∧
    distance (calculateInwardArc p1 p2 radius bulgeToward).center p1 =
      (calculateInwardArc p1 p2 radius bulgeToward).radius ∧
    distance (calculateInwardArc p1 p2 radius bulgeToward).center p2 =
      (calculateInwardArc p1 p2 radius bulgeToward).radius ∧
    distance (calculateInwardArc p1 p2 radius bulgeToward).center (midpoint p1 p2) =
      Real.sqrt ((calculateInwardArc p1 p2 radius bulgeToward).radius *
        (calculateInwardArc p1 p2 radius bulgeToward).radius -
        distance p1 p2 / 2 * (distance p1 p2 / 2)) ∧
    distance (calculateInwardArc p1 p2 radius bulgeToward).center bulgeToward =
      max (distance (inwardArcCenter1 p1 p2 radius) bulgeToward)
        (distance (inwardArcCenter2 p1 p2 radius) bulgeToward) ∧
    arcStartPoint (calculateInwardArc p1 p2 radius bulgeToward) = p1 ∧
    arcEndPoint (calculateInwardArc p1 p2 radius bulgeToward) = p2 := by
  have hdxy : ¬((p2.x - p1.x) = 0 ∧ (p2.y - p1.y) = 0) := by
    rintro ⟨h1, h2⟩
    exact hne (by ext <;> linarith)
  have hd2 : 0 < (p2.x - p1.x) * (p2.x - p1.x) + (p2.y - p1.y) * (p2.y - p1.y) := by
    rcases not_and_or.mp hdxy with h | h
    · nlinarith [mul_self_nonneg (p2.y - p1.y), mul_self_pos.mpr h]
    · nlinarith [mul_self_nonneg (p2.x - p1.x), mul_self_pos.mpr h]
  have hdpos : 0 < distance p1 p2 := Real.sqrt_pos.mpr hd2
  have hdne : distance p1 p2 ≠ 0 := ne_of_gt hdpos
  have hdsq : distance p1 p2 * distance p1 p2 =
      (p2.x - p1.x) * (p2.x - p1.x) + (p2.y - p1.y) * (p2.y - p1.y) :=
    Real.mul_self_sqrt (le_of_lt hd2)
  have hnorm : normalize (subtract p2 p1) =
      ⟨(p2.x - p1.x) / distance p1 p2, (p2.y - p1.y) / distance p1 p2⟩ := by
    unfold normalize subtract
    dsimp only
    rw [if_neg (show ¬Real.sqrt ((p2.x - p1.x) * (p2.x - p1.x) +
      (p2.y - p1.y) * (p2.y - p1.y)) = 0 from hdne)]
    rfl
  have hrd : distance p1 p2 / 2 ≤ inwardArcRadius p1 p2 radius := by
    unfold inwardArcRadius
    dsimp only
    split_ifs with hcl
    · linarith
    · linarith [not_lt.mp hcl]
  have hrpos : 0 < inwardArcRadius p1 p2 radius := lt_of_lt_of_le (by linarith) hrd
  have hh0 : 0 ≤ inwardArcH p1 p2 radius := Real.sqrt_nonneg _
  have hh2 : inwardArcH p1 p2 radius * inwardArcH p1 p2 radius =
      inwardArcRadius p1 p2 radius * inwardArcRadius p1 p2 radius -
        distance p1 p2 / 2 * (distance p1 p2 / 2) := by
    unfold inwardArcH
    dsimp only
    exact Real.mul_self_sqrt (by nlinarith)
  have key : ∀ s : ℝ, s * s = inwardArcRadius p1 p2 radius * inwardArcRadius p1 p2 radius -
        distance p1 p2 / 2 * (distance p1 p2 / 2) →
      distance ⟨(p1.x + p2.x) / 2 + -((p2.y - p1.y) / distance p1 p2) * s,
        (p1.y + p2.y) / 2 + (p2.x - p1.x) / distance p1 p2 * s⟩ p1 =
        inwardArcRadius p1 p2 radius ∧
      distance ⟨(p1.x + p2.x) / 2 + -((p2.y - p1.y) / distance p1 p2) * s,
        (p1.y + p2.y) / 2 + (p2.x - p1.x) / distance p1 p2 * s⟩ p2 =
        inwardArcRadius p1 p2 radius ∧
      distance ⟨(p1.x + p2.x) / 2 + -((p2.y - p1.y) / distance p1 p2) * s,
        (p1.y + p2.y) / 2 + (p2.x - p1.x) / distance p1 p2 * s⟩ (midpoint p1 p2) =
        Real.sqrt (inwardArcRadius p1 p2 radius * inwardArcRadius p1 p2 radius -
          distance p1 p2 / 2 * (distance p1 p2 / 2)) := by
    intro s hs2
    refine ⟨?_, ?_, ?_⟩
    · apply dist_eq_of_sq hrpos.le
      dsimp only
      field_simp
      linear_combination (-(4 * inwardArcRadius p1 p2 radius * inwardArcRadius p1 p2 radius)) *
          hdsq +
        (4 * ((p2.x - p1.x) * (p2.x - p1.x) + (p2.y - p1.y) * (p2.y - p1.y))) * hs2
    · apply dist_eq_of_sq hrpos.le
      dsimp only
      field_simp
      linear_combination (-(4 * inwardArcRadius p1 p2 radius * inwardArcRadius p1 p2 radius)) *
          hdsq +
        (4 * ((p2.x - p1.x) * (p2.x - p1.x) + (p2.y - p1.y) * (p2.y - p1.y))) * hs2
    · apply dist_eq_sqrt_of_sq
      unfold midpoint
      dsimp only
      field_simp
      linear_combination (-(64 * s * s)) * hdsq +
        (64 * distance p1 p2 * distance p1 p2) * hs2
  have hc1 : inwardArcCenter1 p1 p2 radius =
      ⟨(p1.x + p2.x) / 2 + -((p2.y - p1.y) / distance p1 p2) * inwardArcH p1 p2 radius,
       (p1.y + p2.y) / 2 + (p2.x - p1.x) / distance p1 p2 * inwardArcH p1 p2 radius⟩ := by
    unfold inwardArcCenter1
    rw [hnorm]
    rfl
  have hc2 : inwardArcCenter2 p1 p2 radius =
      ⟨(p1.x + p2.x) / 2 + -((p2.y - p1.y) / distance p1 p2) * -inwardArcH p1 p2 radius,
       (p1.y + p2.y) / 2 + (p2.x - p1.x) / distance p1 p2 * -inwardArcH p1 p2 radius⟩ := by
    unfold inwardArcCenter2
    rw [hnorm]
    rfl
  have k1 := key (inwardArcH p1 p2 radius) (by rw [← hh2])
  have k2 := key (-inwardArcH p1 p2 radius) (by rw [← hh2]; ring)
  have hrr : (calculateInwardArc p1 p2 radius bulgeToward).radius =
      inwardArcRadius p1 p2 radius := rfl
  have hctr : (calculateInwardArc p1 p2 radius bulgeToward).center =
        inwardArcCenter1 p1 p2 radius ∨
      (calculateInwardArc p1 p2 radius bulgeToward).center =
        inwardArcCenter2 p1 p2 radius := by
    show inwardArcCenter p1 p2 radius bulgeToward = _ ∨
      inwardArcCenter p1 p2 radius bulgeToward = _
    unfold inwardArcCenter
    dsimp only
    split_ifs
    · exact Or.inl rfl
    · exact Or.inr rfl
  have hmax : distance (calculateInwardArc p1 p2 radius bulgeToward).center bulgeToward =
      max (distance (inwardArcCenter1 p1 p2 radius) bulgeToward)
        (distance (inwardArcCenter2 p1 p2 radius) bulgeToward) := by
    show distance (inwardArcCenter p1 p2 radius bulgeToward) bulgeToward = _
    unfold inwardArcCenter
    dsimp only
    split_ifs with hgt
    · exact (max_eq_left hgt.le).symm
    · exact (max_eq_right (not_lt.mp hgt)).symm
  have hdists : distance (calculateInwardArc p1 p2 radius bulgeToward).center p1 =
        inwardArcRadius p1 p2 radius ∧
      distance (calculateInwardArc p1 p2 radius bulgeToward).center p2 =
        inwardArcRadius p1 p2 radius ∧
      distance (calculateInwardArc p1 p2 radius bulgeToward).center (midpoint p1 p2) =
        Real.sqrt (inwardArcRadius p1 p2 radius * inwardArcRadius p1 p2 radius -
          distance p1 p2 / 2 * (distance p1 p2 / 2)) := by
    rcases hctr with hceq | hceq
    · rw [hceq, hc1]
      exact k1
    · rw [hceq, hc2]
      exact k2
  refine ⟨hrr ▸ hrd, by rw [hrr]; rfl, hdists.1, hdists.2.1, ?_, hmax, ?_, ?_⟩
  · rw [hrr]
    exact hdists.2.2
  · exact arc_endpoint_eq (hrr ▸ hrpos) hdists.1
  · exact arc_endpoint_eq (hrr ▸ hrpos) hdists.2.1

/-- C4 counterexample: at the degenerate input `p1 = p2 = (0,0)` (chord
distance 0) with radius 5, the reconstructed start point is `(5, 0) ≠ p1`
and the center sits at distance `0 ≠ √(r² - (d/2)²) = 5` from the
midpoint, so the claim fails without the distinctness hypothesis. -/
theorem C4_counterexample :
    arcStartPoint (calculateInwardArc ⟨0, 0⟩ ⟨0, 0⟩ 5 ⟨3, 4⟩) ≠ (⟨0, 0⟩ : Point ℝ) ∧
    distance (calculateInwardArc ⟨0, 0⟩ ⟨0, 0⟩ 5 ⟨3, 4⟩).center (midpoint ⟨0, 0⟩ ⟨0, 0⟩) ≠
      Real.sqrt ((calculateInwardArc ⟨0, 0⟩ ⟨0, 0⟩ 5 ⟨3, 4⟩).radius *
        (calculateInwardArc ⟨0, 0⟩ ⟨0, 0⟩ 5 ⟨3, 4⟩).radius -
        distance (⟨0, 0⟩ : Point ℝ) ⟨0, 0⟩ / 2 *
          (distance (⟨0, 0⟩ : Point ℝ) ⟨0, 0⟩ / 2)) := by
  have hd0 : distance (⟨0, 0⟩ : Point ℝ) ⟨0, 0⟩ = 0 := by
    unfold distance
    norm_num
  have hr : inwardArcRadius ⟨0, 0⟩ ⟨0, 0⟩ 5 = 5 := by
    unfold inwardArcRadius
    rw [hd0]
    norm_num
  have hnormz : normalize (subtract ⟨0, 0⟩ ⟨0, 0⟩) = (⟨0, 0⟩ : Point ℝ) := by
    unfold normalize subtract
    norm_num
  have hcenter : inwardArcCenter ⟨0, 0⟩ ⟨0, 0⟩ 5 ⟨3, 4⟩ = (⟨0, 0⟩ : Point ℝ) := by
    unfold inwardArcCenter inwardArcCenter1 inwardArcCenter2
    rw [hnormz]
    simp [midpoint, add, scale, perpendicular]
  have hzero : (⟨(0 : ℝ) - (inwardArcCenter ⟨0, 0⟩ ⟨0, 0⟩ 5 ⟨3, 4⟩).x,
      (0 : ℝ) - (inwardArcCenter ⟨0, 0⟩ ⟨0, 0⟩ 5 ⟨3, 4⟩).y⟩ : ℂ) = 0 := by
    rw [hcenter]
    simp [Complex.ext_iff]
  have hsqrt25 : Real.sqrt 25 = 5 := by
    rw [show (25 : ℝ) = 5 ^ 2 by norm_num, Real.sqrt_sq (by norm_num : (0 : ℝ) ≤ 5)]
  have hcc : (calculateInwardArc ⟨0, 0⟩ ⟨0, 0⟩ 5 ⟨3, 4⟩).center =
      inwardArcCenter ⟨0, 0⟩ ⟨0, 0⟩ 5 ⟨3, 4⟩ := rfl
  have hrr : (calculateInwardArc ⟨0, 0⟩ ⟨0, 0⟩ 5 ⟨3, 4⟩).radius =
      inwardArcRadius ⟨0, 0⟩ ⟨0, 0⟩ 5 := rfl
  have hsa : (calculateInwardArc ⟨0, 0⟩ ⟨0, 0⟩ 5 ⟨3, 4⟩).startAngle =
      atan2 ((0 : ℝ) - (inwardArcCenter ⟨0, 0⟩ ⟨0, 0⟩ 5 ⟨3, 4⟩).y)
        ((0 : ℝ) - (inwardArcCenter ⟨0, 0⟩ ⟨0, 0⟩ 5 ⟨3, 4⟩).x) := rfl
  constructor
  · unfold arcStartPoint
    rw [hcc, hrr, hsa, hcenter, hr]
    unfold atan2
    rw [show (⟨(0 : ℝ) - (⟨0, 0⟩ : Point ℝ).x, (0 : ℝ) - (⟨0, 0⟩ : Point ℝ).y⟩ : ℂ) = 0 from by
        simp [Complex.ext_iff], Complex.arg_zero, Real.cos_zero, Real.sin_zero]
    simp [Point.mk.injEq]
  · rw [hcc, hrr, hcenter, hr, hd0]
    unfold midpoint distance
    norm_num [hsqrt25]

/-- C4 witness: the amended theorem applied to the distinct pair
`(0,0), (2,0)` with radius 5 and bulge target `(1,1)`. -/
theorem C4_witness :
    ((⟨0, 0⟩ : Point ℝ) ≠ ⟨2, 0⟩) ∧
    (distance (⟨0, 0⟩ : Point ℝ) ⟨2, 0⟩ / 2 ≤
        (calculateInwardArc ⟨0, 0⟩ ⟨2, 0⟩ 5 ⟨1, 1⟩).radius ∧
      arcStartPoint (calculateInwardArc ⟨0, 0⟩ ⟨2, 0⟩ 5 ⟨1, 1⟩) = ⟨0, 0⟩ ∧
      arcEndPoint (calculateInwardArc ⟨0, 0⟩ ⟨2, 0⟩ 5 ⟨1, 1⟩) = ⟨2, 0⟩) := by
  have hne : (⟨0, 0⟩ : Point ℝ) ≠ ⟨2, 0⟩ := by
    intro h
    have := congrArg Point.x h
    norm_num at this
  have h := C4_calculateInwardArc_spec ⟨0, 0⟩ ⟨2, 0⟩ 5 ⟨1, 1⟩ hne
  exact ⟨hne, h.1, h.2.2.2.2.2.2.1, h.2.2.2.2.2.2.2⟩

/-- C5: `rotateTriangle t 120` keeps the `centroid` and `isUpPointing`
fields unchanged, and applying it three times returns every vertex to its
original position exactly (over the exact reals of this model). -/
theorem C5_rotate120_preserves_centroid_and_closes (t : Triangle ℝ) :
    (rotateTriangle t .r120).centroid = t.centroid ∧
    (rotateTriangle t .r120).isUpPointing = t.isUpPointing ∧
    (rotateTriangle (rotateTriangle (rotateTriangle t .r120) .r120) .r120).A = t.A ∧
    (rotateTriangle (rotateTriangle (rotateTriangle t .r120) .r120) .r120).B = t.B ∧
    (rotateTriangle (rotateTriangle (rotateTriangle t .r120) .r120) .r120).C = t.C := by
  have hsum : Rotation.degrees .r120 * Real.pi / 180 +
      Rotation.degrees .r120 * Real.pi / 180 + Rotation.degrees .r120 * Real.pi / 180 =
      2 * Real.pi := by
    simp only [Rotation.degrees]
    ring
  refine ⟨rfl, rfl, ?_, ?_, ?_⟩ <;>
    simp only [rotateTriangle, rotatePoint_rotatePoint, hsum, rotatePoint_two_pi]

/-- C5 witness: the closure property evaluated at the canonical triangle. -/
theorem C5_witness :
    (rotateTriangle canonicalTriangle .r120).centroid = canonicalTriangle.centroid ∧
    (rotateTriangle canonicalTriangle .r120).isUpPointing = canonicalTriangle.isUpPointing ∧
    (rotateTriangle (rotateTriangle (rotateTriangle canonicalTriangle .r120) .r120)
      .r120).A = canonicalTriangle.A ∧
    (rotateTriangle (rotateTriangle (rotateTriangle canonicalTriangle .r120) .r120)
      .r120).B = canonicalTriangle.B ∧
    (rotateTriangle (rotateTriangle (rotateTriangle canonicalTriangle .r120) .r120)
      .r120).C = canonicalTriangle.C :=
  C5_rotate120_preserves_centroid_and_closes canonicalTriangle

/-- C8: when the panel's `defaultPatternId` matches no pattern in the
list, `generatePanelGeometry` returns the empty `RenderedSegments`. -/
theorem C8_missing_default_pattern_yields_empty (panel : PanelGeom.Panel)
    (patterns : List Pattern)
    (h : patterns.find? (fun p => p.id == panel.defaultPatternId) = none) :
    PanelGeom.generatePanelGeometry panel patterns =
      { lines := [], arcs := [], polygons := [] } := by
  unfold PanelGeom.generatePanelGeometry
  rw [h]

/-- C8 witness: a concrete panel whose default pattern id is unknown. -/
theorem C8_witness :
    PanelGeom.generatePanelGeometry orphanPanel [] =
      { lines := [], arcs := [], polygons := [] } :=
  C8_missing_default_pattern_yields_empty orphanPanel [] rfl

/-- Replacing an unresolvable cell override by an override naming the
default pattern (same rotation) does not change one cell step. -/
theorem cellStep_congr (panel : PanelGeom.Panel) (patterns : List Pattern) (dp : Pattern)
    (rc : ℕ × ℕ) (cfg : PanelGeom.CellConfig)
    (hcell : panel.cells rc = some cfg)
    (hmiss : patterns.find? (fun p => p.id == cfg.patternId) = none)
    (hdef : patterns.find? (fun p => p.id == panel.defaultPatternId) = some dp)
    (acc : RenderedSegments × List ((ℤ × ℤ) × (ℤ × ℤ))) (rc' : ℕ × ℕ) :
    PanelGeom.cellStep
      { panel with cells := fun r =>
          if r = rc then some ⟨panel.defaultPatternId, cfg.rotation⟩ else panel.cells r }
      patterns dp acc rc' =
    PanelGeom.cellStep panel patterns dp acc rc' := by
  unfold PanelGeom.cellStep PanelGeom.clipAndAddSegments
  dsimp only
  by_cases h : rc' = rc
  · subst h
    rw [hcell, if_pos rfl]
    simp only [PanelGeom.resolveCell, hmiss, hdef, Option.getD_some, Option.getD_none]
  · rw [if_neg h]

/-- C9: a cell override whose `patternId` resolves to no pattern (while
the default pattern exists) renders exactly as if the override named the
default pattern with the same rotation: the default pattern is used and
the override's rotation is still applied. -/
theorem C9_unknown_cell_pattern_uses_default_with_rotation
    (panel : PanelGeom.Panel) (patterns : List Pattern) (rc : ℕ × ℕ)
    (cfg : PanelGeom.CellConfig) (dp : Pattern)
    (hcell : panel.cells rc = some cfg)
    (hmiss : patterns.find? (fun p => p.id == cfg.patternId) = none)
    (hdef : patterns.find? (fun p => p.id == panel.defaultPatternId) = some dp) :
    PanelGeom.generatePanelGeometry panel patterns =
      PanelGeom.generatePanelGeometry
        { panel with cells := fun r =>
            if r = rc then some ⟨panel.defaultPatternId, cfg.rotation⟩
            else panel.cells r }
        patterns := by
  unfold PanelGeom.generatePanelGeometry
  dsimp only
  rw [hdef]
  refine congrArg Prod.fst ?_
  apply List.foldl_ext
  intro acc b _
  exact (cellStep_congr panel patterns dp rc cfg hcell hmiss hdef acc b).symm

/-- C7 (amended): clipping a polygon whose vertices all lie in the closed
rectangle returns it unchanged; clipping a polygon that lies strictly
below the rectangle (all vertices with `y < minY`, the half-plane of the
first clip edge) yields the empty result, provided `minX < maxX`. -/
theorem C7_clipPolygonToRect_inside_id_below_empty :
    (∀ (K : Type) [LinearOrderedField K] (poly : List (Point K)) (minX minY maxX maxY : K),
      (∀ p ∈ poly, minX ≤ p.x ∧ p.x ≤ maxX ∧ minY ≤ p.y ∧ p.y ≤ maxY) →
      clipPolygonToRect poly minX minY maxX maxY = poly) ∧
    (∀ (K : Type) [LinearOrderedField K] (poly : List (Point K)) (minX minY maxX maxY : K),
      minX < maxX → (∀ p ∈ poly, p.y < minY) →
      clipPolygonToRect poly minX minY maxX maxY = []) := by
  constructor
  · intro K _ poly minX minY maxX maxY h
    rcases poly with _ | ⟨q, rest⟩
    · exact clipFold_nil _
    · obtain ⟨hx1, hx2, hy1, hy2⟩ := h q (List.mem_cons_self q rest)
      have hx : minX ≤ maxX := le_trans hx1 hx2
      have hy : minY ≤ maxY := le_trans hy1 hy2
      refine clipFold_id _ _ ?_
      intro e he
      simp only [List.mem_cons, List.mem_singleton, List.not_mem_nil, or_false] at he
      rcases he with rfl | rfl | rfl | rfl <;>
        · refine shPass_all_inside _ _ _ ?_
          intro p hp
          obtain ⟨h1, h2, h3, h4⟩ := h p hp
          simp only [lineSide]
          nlinarith
  · intro K _ poly minX minY maxX maxY hlt h
    rcases poly with _ | ⟨q, rest⟩
    · exact clipFold_nil _
    · unfold clipPolygonToRect
      rw [List.foldl_cons, if_neg (by simp), shPass_all_outside _ _ _ ?_]
      · exact clipFold_nil _
      · intro p hp
        have := h p hp
        simp only [lineSide]
        nlinarith

/-- C7 counterexample: a triangle lying entirely to the right of the
rectangle `[0,4] × [0,4]` (every vertex has `x > 4`, so the polygon is
fully outside) clips to a 4-point — not a degenerate (< 3 point) —
result. -/
theorem C7_counterexample :
    (∀ p ∈ ([⟨5, -2⟩, ⟨8, 2⟩, ⟨5, 6⟩] : List (Point ℚ)), 4 < p.x) ∧
    3 ≤ (clipPolygonToRect ([⟨5, -2⟩, ⟨8, 2⟩, ⟨5, 6⟩] : List (Point ℚ)) 0 0 4 4).length := by
  constructor
  · intro p hp
    simp only [List.mem_cons, List.not_mem_nil, or_false] at hp
    rcases hp with rfl | rfl | rfl <;> norm_num
  · have h1 : shPass (⟨0, 0⟩ : Point ℚ) ⟨4, 0⟩ [⟨5, -2⟩, ⟨8, 2⟩, ⟨5, 6⟩] =
        [⟨7/2, -4⟩, ⟨8, 2⟩, ⟨5, 6⟩, ⟨5, 12⟩] := by
      rw [shPass_three,
        shStep_out_in (by norm_num [lineSide]) (by norm_num [lineSide])
          (lineLineIntersection_eq_some (q := ⟨7/2, -4⟩)
            (by rw [not_lt, le_abs]; right; norm_num) (by norm_num) (by norm_num)),
        shStep_in_in (by norm_num [lineSide]) (by norm_num [lineSide]),
        shStep_in_out (by norm_num [lineSide]) (by norm_num [lineSide])
          (lineLineIntersection_eq_some (q := ⟨5, 12⟩)
            (by rw [not_lt, le_abs]; left; norm_num) (by norm_num) (by norm_num))]
      rfl
    have h2 : shPass (⟨4, 0⟩ : Point ℚ) ⟨4, 4⟩ [⟨7/2, -4⟩, ⟨8, 2⟩, ⟨5, 6⟩, ⟨5, 12⟩] =
        [⟨7/2, -4⟩, ⟨3, -14/3⟩, ⟨6, 68/3⟩] := by
      rw [shPass_four,
        shStep_in_out (by norm_num [lineSide]) (by norm_num [lineSide])
          (lineLineIntersection_eq_some (q := ⟨3, -14/3⟩)
            (by rw [not_lt, le_abs]; left; norm_num) (by norm_num) (by norm_num)),
        shStep_out_out (by norm_num [lineSide]) (by norm_num [lineSide]),
        shStep_out_out (by norm_num [lineSide]) (by norm_num [lineSide]),
        shStep_out_in (by norm_num [lineSide]) (by norm_num [lineSide])
          (lineLineIntersection_eq_some (q := ⟨6, 68/3⟩)
            (by rw [not_lt, le_abs]; right; norm_num) (by norm_num) (by norm_num))]
      rfl
    have h3 : shPass (⟨4, 4⟩ : Point ℚ) ⟨0, 4⟩ [⟨7/2, -4⟩, ⟨3, -14/3⟩, ⟨6, 68/3⟩] =
        [⟨7/2, -4⟩, ⟨3, -14/3⟩, ⟨84/41, -40/3⟩, ⟨31/4, 124/3⟩] := by
      rw [shPass_three,
        shStep_in_in (by norm_num [lineSide]) (by norm_num [lineSide]),
        shStep_in_out (by norm_num [lineSide]) (by norm_num [lineSide])
          (lineLineIntersection_eq_some (q := ⟨84/41, -40/3⟩)
            (by rw [not_lt, le_abs]; left; norm_num) (by norm_num) (by norm_num)),
        shStep_out_in (by norm_num [lineSide]) (by norm_num [lineSide])
          (lineLineIntersection_eq_some (q := ⟨31/4, 124/3⟩)
            (by rw [not_lt, le_abs]; right; norm_num) (by norm_num) (by norm_num))]
      rfl
    have h4 : shPass (⟨0, 4⟩ : Point ℚ) ⟨0, 0⟩
        [⟨7/2, -4⟩, ⟨3, -14/3⟩, ⟨84/41, -40/3⟩, ⟨31/4, 124/3⟩] =
        [⟨7/2, -4⟩, ⟨3, -14/3⟩, ⟨84/41, -40/3⟩, ⟨31/4, 124/3⟩] := by
      refine shPass_all_inside _ _ _ ?_
      intro p hp
      simp only [List.mem_cons, List.not_mem_nil, or_false] at hp
      rcases hp with rfl | rfl | rfl | rfl <;> norm_num [lineSide]
    have hfinal : clipPolygonToRect ([⟨5, -2⟩, ⟨8, 2⟩, ⟨5, 6⟩] : List (Point ℚ)) 0 0 4 4 =
        [⟨7/2, -4⟩, ⟨3, -14/3⟩, ⟨84/41, -40/3⟩, ⟨31/4, 124/3⟩] := by
      unfold clipPolygonToRect
      rw [List.foldl_cons, if_neg (by simp), h1,
        List.foldl_cons, if_neg (by simp), h2,
        List.foldl_cons, if_neg (by simp), h3,
        List.foldl_cons, if_neg (by simp), h4,
        List.foldl_nil]
    rw [hfinal]
    norm_num

/-- C7 witness: the amended theorem applied over `ℚ` to a polygon inside
`[0,4] × [0,4]` and to one strictly below it. -/
theorem C7_witness :
    clipPolygonToRect ([⟨1, 1⟩, ⟨2, 1⟩, ⟨1, 2⟩] : List (Point ℚ)) 0 0 4 4 =
      [⟨1, 1⟩, ⟨2, 1⟩, ⟨1, 2⟩] ∧
    clipPolygonToRect ([⟨1, -2⟩, ⟨3, -1⟩, ⟨2, -3⟩] : List (Point ℚ)) 0 0 4 4 = [] :=
  ⟨C7_clipPolygonToRect_inside_id_below_empty.1 ℚ _ 0 0 4 4 (by decide),
   C7_clipPolygonToRect_inside_id_below_empty.2 ℚ _ 0 0 4 4 (by norm_num) (by decide)⟩

/-- C6: the Asanoha configuration (all three unblocked corner-to-center
slots, everything else null) on the canonical triangle at rotation 0
produces exactly the 3 vertex-to-centroid lines (centroid
`(7.5, 8.66) = (15/2, 433/50)`), no arcs and no polygons — in both the
line-rendering and the trapezoid-polygon variant of the generator. -/
theorem C6_asanoha_canonical_scenario :
    (((SegmentsLine.generatePatternSegments asanohaPattern canonicalTriangle .r0
          (8/10)).lines.map (fun l => (l.start, l.stop)) =
        [((⟨15/2, 0⟩ : Point ℝ), (⟨15/2, 433/50⟩ : Point ℝ)),
         (⟨0, 1299/100⟩, ⟨15/2, 433/50⟩), (⟨15, 1299/100⟩, ⟨15/2, 433/50⟩)]) ∧
      (SegmentsLine.generatePatternSegments asanohaPattern canonicalTriangle .r0
          (8/10)).arcs = [] ∧
      (SegmentsLine.generatePatternSegments asanohaPattern canonicalTriangle .r0
          (8/10)).polygons = []) ∧
    (((SegmentsPoly.generatePatternSegments asanohaPattern canonicalTriangle
          .r0).lines.map (fun l => (l.start, l.stop)) =
        [((⟨15/2, 0⟩ : Point ℝ), (⟨15/2, 433/50⟩ : Point ℝ)),
         (⟨0, 1299/100⟩, ⟨15/2, 433/50⟩), (⟨15, 1299/100⟩, ⟨15/2, 433/50⟩)]) ∧
      (SegmentsPoly.generatePatternSegments asanohaPattern canonicalTriangle .r0).arcs = [] ∧
      (SegmentsPoly.generatePatternSegments asanohaPattern canonicalTriangle
          .r0).polygons = []) := by
  constructor
  · refine ⟨?_, ?_, ?_⟩ <;>
      simp [SegmentsLine.generatePatternSegments, rotateTriangle,
        SegmentsLine.generateEdgeParallelSegments, SegmentsLine.edgeParallelStep,
        SegmentsLine.generateCornerToCenterSegments, SegmentsLine.cornerToCenterStep,
        generateCornerArcs, asanohaPattern, canonicalTriangle, getCornerPoint]
  · refine ⟨?_, ?_, ?_⟩ <;>
      simp [SegmentsPoly.generatePatternSegments, rotateTriangle,
        SegmentsPoly.generateEdgeParallelSegments, SegmentsPoly.edgeParallelStep,
        SegmentsPoly.generateCornerToCenterSegments, SegmentsPoly.cornerToCenterStep,
        generateCornerArcs, asanohaPattern, canonicalTriangle, getCornerPoint]

/-- C10: for every pair of endpoints and every well-formed rectangle
(`minX ≤ maxX`, `minY ≤ maxY`) the Cohen-Sutherland loop of
`clipLineToRect` returns after at most 5 iterations (4 clips plus the
final accept/reject): the fuelled loop does not exhaust its fuel, and
`clipLineToRect` returns its verdict — a clipped endpoint pair or null. -/
theorem C10_clipLineToRect_terminates (K : Type) [LinearOrderedField K]
    (start stop : Point K) (minX minY maxX maxY : K)
    (hx : minX ≤ maxX) (hy : minY ≤ maxY) :
    ∃ r : Option (Point K × Point K),
      csLoop minX minY maxX maxY 5 start stop = some r ∧
      clipLineToRect start stop minX minY maxX maxY = r := by
  have h : (csLoop minX minY maxX maxY 5 start stop).isSome = true := by
    simpa using csLoop_isSome hx hy 4 start stop (csMeasure_le_four start stop)
  obtain ⟨r, hr⟩ := Option.isSome_iff_exists.mp h
  exact ⟨r, hr, by rw [clipLineToRect, hr]; rfl⟩

/-- C10 witness: a concrete segment against the rectangle `[0,4] × [0,4]`
over `ℚ`. -/
theorem C10_witness :
    ∃ r : Option (Point ℚ × Point ℚ),
      csLoop 0 0 4 4 5 ⟨-5, -5⟩ ⟨10, 3⟩ = some r ∧
      clipLineToRect ⟨-5, -5⟩ ⟨10, 3⟩ 0 0 4 4 = r :=
  C10_clipLineToRect_terminates ℚ ⟨-5, -5⟩ ⟨10, 3⟩ 0 0 4 4 (by norm_num) (by norm_num)

/-- C9 witness: concrete panel with a ghost cell override at (0,0). -/
theorem C9_witness :
    PanelGeom.generatePanelGeometry ghostCellPanel [emptyPattern] =
      PanelGeom.generatePanelGeometry
        { ghostCellPanel with cells := fun r =>
            if r = (0, 0) then some ⟨ghostCellPanel.defaultPatternId, Rotation.r120⟩
            else ghostCellPanel.cells r }
        [emptyPattern] :=
  C9_unknown_cell_pattern_uses_default_with_rotation ghostCellPanel [emptyPattern]
    (0, 0) ⟨"ghost", .r120⟩ emptyPattern rfl rfl rfl

/-- C2 (amended): in the line-rendering variant of the generator, an edge
whose edge-parallel offset `distFromEdge` lies outside the open interval
`(0, altitude)` is suppressed entirely — the per-edge step emits no line
and records no blocker for its corner. (The trapezoid-polygon variant
performs no such check; see the counterexample.) -/
theorem C2_line_variant_suppresses_invalid_offset (pattern : Pattern) (tri : Triangle ℝ)
    (edgeWeight : ℝ) (edge : Edge) (corner : Corner) (config : EdgeParallelConfig)
    (hcfg : pattern.edgeParallel edge = some config)
    (hinv : SegmentsLine.epDistFromEdge config tri edge corner ≤ 0 ∨
      SegmentsLine.epDistFromEdge config tri edge corner ≥
        SegmentsLine.epAltitude tri edge corner) :
    SegmentsLine.edgeParallelStep pattern tri edgeWeight edge corner = none := by
  unfold SegmentsLine.edgeParallelStep
  rw [hcfg]
  dsimp only
  rw [if_pos hinv]

/-- C2 witness: the `from-edge` config with distance `-1` on edge `BC` of
the sample triangle has `distFromEdge = -1 ≤ 0` and is suppressed. -/
theorem C2_witness :
    invalidEdgeParallelPattern.edgeParallel Edge.BC =
      some ⟨PositionMode.fromEdge, -1, 1, true⟩ ∧
    (SegmentsLine.epDistFromEdge ⟨PositionMode.fromEdge, -1, 1, true⟩ sampleTriangle
        Edge.BC Corner.A ≤ 0 ∨
      SegmentsLine.epDistFromEdge ⟨PositionMode.fromEdge, -1, 1, true⟩ sampleTriangle
        Edge.BC Corner.A ≥ SegmentsLine.epAltitude sampleTriangle Edge.BC Corner.A) ∧
    SegmentsLine.edgeParallelStep invalidEdgeParallelPattern sampleTriangle (8 / 10)
      Edge.BC Corner.A = none := by
  have hcfg : invalidEdgeParallelPattern.edgeParallel Edge.BC =
      some ⟨PositionMode.fromEdge, -1, 1, true⟩ := rfl
  have hinv : SegmentsLine.epDistFromEdge ⟨PositionMode.fromEdge, -1, 1, true⟩ sampleTriangle
        Edge.BC Corner.A ≤ 0 ∨
      SegmentsLine.epDistFromEdge ⟨PositionMode.fromEdge, -1, 1, true⟩ sampleTriangle
        Edge.BC Corner.A ≥ SegmentsLine.epAltitude sampleTriangle Edge.BC Corner.A :=
    Or.inl (by norm_num [SegmentsLine.epDistFromEdge])
  exact ⟨hcfg, hinv,
    C2_line_variant_suppresses_invalid_offset invalidEdgeParallelPattern sampleTriangle
      (8 / 10) Edge.BC Corner.A ⟨PositionMode.fromEdge, -1, 1, true⟩ hcfg hinv⟩

/-- C2 counterexample: a `from-corner` config at distance 0 has
spec-level offset `distFromEdge = altitude - 0 ≥ altitude` (geometrically
invalid), yet the trapezoid-polygon variant still emits a clipped polygon
for the edge AND records a blocker for its corner: the polygon variant
lacks the `(0, altitude)` suppression check of the line variant. -/
theorem C2_counterexample :
    cornerZeroEdgeParallelPattern.edgeParallel Edge.BC =
      some ⟨PositionMode.fromCorner, 0, 1, true⟩ ∧
    SegmentsLine.epDistFromEdge ⟨PositionMode.fromCorner, 0, 1, true⟩ sampleTriangle
        Edge.BC Corner.A ≥ SegmentsLine.epAltitude sampleTriangle Edge.BC Corner.A ∧
    (SegmentsPoly.generateEdgeParallelSegments cornerZeroEdgeParallelPattern
        sampleTriangle).polygons ≠ [] ∧
    (SegmentsPoly.generateEdgeParallelSegments cornerZeroEdgeParallelPattern
        sampleTriangle).blockerInfo ≠ [] := by
  refine ⟨rfl, ?_, ?_, ?_⟩
  · unfold SegmentsLine.epDistFromEdge
    norm_num
  all_goals {
  have h100 : Real.sqrt 100 = 10 := by
    rw [show (100 : ℝ) = 10 ^ 2 by norm_num, Real.sqrt_sq (by norm_num : (0 : ℝ) ≤ 10)]
  have hvec : normalize (subtract (⟨10, 0⟩ : Point ℝ) ⟨0, 0⟩) = ⟨1, 0⟩ := by
    unfold subtract normalize
    norm_num [h100, Point.mk.injEq]
  have hd : distance (⟨0, 0⟩ : Point ℝ) ⟨10, 0⟩ = 10 := by
    unfold distance
    norm_num [h100]
  have hc1 : shPass (⟨5, 8⟩ : Point ℝ) ⟨0, 0⟩
      ([⟨-5, 9⟩, ⟨25, 9⟩, ⟨25, 7⟩, ⟨-5, 7⟩] : List (Point ℝ)) =
      [⟨-125/8, 9⟩, ⟨25, 9⟩, ⟨25, 7⟩, ⟨365/8, 7⟩] := by
    rw [shPass_four,
      shStep_out_in (by norm_num [lineSide]) (by norm_num [lineSide])
        (lineLineIntersection_eq_some (q := ⟨-125/8, 9⟩)
          (by rw [not_lt, le_abs]; right; norm_num) (by norm_num) (by norm_num)),
      shStep_in_in (by norm_num [lineSide]) (by norm_num [lineSide]),
      shStep_in_out (by norm_num [lineSide]) (by norm_num [lineSide])
        (lineLineIntersection_eq_some (q := ⟨365/8, 7⟩)
          (by rw [not_lt, le_abs]; left; norm_num) (by norm_num) (by norm_num)),
      shStep_out_out (by norm_num [lineSide]) (by norm_num [lineSide])]
    rfl
  have hc2 : shPass (⟨0, 0⟩ : Point ℝ) ⟨10, 0⟩
      ([⟨-125/8, 9⟩, ⟨25, 9⟩, ⟨25, 7⟩, ⟨365/8, 7⟩] : List (Point ℝ)) =
      [⟨-125/8, 9⟩, ⟨25, 9⟩, ⟨25, 7⟩, ⟨365/8, 7⟩] := by
    refine shPass_all_inside _ _ _ ?_
    intro p hp
    simp only [List.mem_cons, List.not_mem_nil, or_false] at hp
    rcases hp with rfl | rfl | rfl | rfl <;> norm_num [lineSide]
  have hc3 : shPass (⟨10, 0⟩ : Point ℝ) ⟨5, 8⟩
      ([⟨-125/8, 9⟩, ⟨25, 9⟩, ⟨25, 7⟩, ⟨365/8, 7⟩] : List (Point ℝ)) =
      [⟨-125/8, 9⟩, ⟨-285/8, 9⟩, ⟨2075/24, 17/3⟩] := by
    rw [shPass_four,
      shStep_in_out (by norm_num [lineSide]) (by norm_num [lineSide])
        (lineLineIntersection_eq_some (q := ⟨-285/8, 9⟩)
          (by rw [not_lt, le_abs]; left; norm_num) (by norm_num) (by norm_num)),
      shStep_out_out (by norm_num [lineSide]) (by norm_num [lineSide]),
      shStep_out_out (by norm_num [lineSide]) (by norm_num [lineSide]),
      shStep_out_in (by norm_num [lineSide]) (by norm_num [lineSide])
        (lineLineIntersection_eq_some (q := ⟨2075/24, 17/3⟩)
          (by rw [not_lt, le_abs]; right; norm_num) (by norm_num) (by norm_num))]
    rfl
  have hclip : clipPolygonToTriangle
      ([⟨-5, 9⟩, ⟨25, 9⟩, ⟨25, 7⟩, ⟨-5, 7⟩] : List (Point ℝ))
      { A := ⟨5, 8⟩, B := ⟨0, 0⟩, C := ⟨10, 0⟩, centroid := ⟨5, 8 / 3⟩,
        isUpPointing := false } =
      [⟨-125/8, 9⟩, ⟨-285/8, 9⟩, ⟨2075/24, 17/3⟩] := by
    unfold clipPolygonToTriangle
    dsimp only
    rw [List.foldl_cons, if_neg (by simp), hc1,
      List.foldl_cons, if_neg (by simp), hc2,
      List.foldl_cons, if_neg (by simp), hc3,
      List.foldl_nil]
  have hstep : SegmentsPoly.edgeParallelStep cornerZeroEdgeParallelPattern sampleTriangle
      Edge.BC Corner.A =
      some ({ points := [⟨-125/8, 9⟩, ⟨-285/8, 9⟩, ⟨2075/24, 17/3⟩], weight := 2 },
        some { corner := Corner.A, outerEdge := ((⟨-5, 9⟩ : Point ℝ), ⟨25, 9⟩),
               innerEdge := ((⟨-5, 7⟩ : Point ℝ), ⟨25, 7⟩) }) := by
    unfold SegmentsPoly.edgeParallelStep
    rw [show cornerZeroEdgeParallelPattern.edgeParallel Edge.BC =
      some ⟨PositionMode.fromCorner, 0, 1, true⟩ from rfl]
    dsimp only [getEdgeVertices, getCornerPoint, sampleTriangle, cornerZeroEdgeParallelPattern]
    rw [hvec, hd]
    dsimp only [midpoint, subtract, add, scale, perpendicular]
    norm_num
    rw [hclip]
    norm_num [Point.mk.injEq]
  have hCA : SegmentsPoly.edgeParallelStep cornerZeroEdgeParallelPattern sampleTriangle
      Edge.CA Corner.B = none := rfl
  have hAB : SegmentsPoly.edgeParallelStep cornerZeroEdgeParallelPattern sampleTriangle
      Edge.AB Corner.C = none := rfl
  unfold SegmentsPoly.generateEdgeParallelSegments
  simp [hstep, hCA, hAB]
  }

/-- C3: FALSIFIED on a concrete input (code bug). For the pattern with an
edge-parallel blocker on `BC` (6 mm from the edge, altitude 8) and a
corner-to-center config on `A` with `blockedBy = edgeParallel` and
`startSide = center`, the generator emits the corner line from
`(5, 19/2)` to the centroid `(5, 8/3)`: because `lineLineIntersection`
returns the reflection of the true crossing about its first argument, the
"blocked" line starts beyond the corner `A = (5, 8)` and is strictly
LONGER (length `41/6`) than the full corner-to-centroid segment (length
`16/3`), contradicting the claimed strict shortening. -/
theorem C3_blocked_line_longer_than_full_segment :
    ((SegmentsLine.generatePatternSegments blockedCornerPattern sampleTriangle Rotation.r0
        (8 / 10)).lines.map (fun l => (l.start, l.stop)) =
      [((⟨25/4, 6⟩ : Point ℝ), (⟨15/4, 6⟩ : Point ℝ)),
       ((⟨5, 19/2⟩ : Point ℝ), (⟨5, 8/3⟩ : Point ℝ))]) ∧
    distance (⟨5, 19/2⟩ : Point ℝ) ⟨5, 8/3⟩ >
      distance (getCornerPoint sampleTriangle Corner.A) sampleTriangle.centroid := by
  have hs100 : Real.sqrt 100 = 10 := by
    rw [show (100 : ℝ) = 10 ^ 2 by norm_num, Real.sqrt_sq (by norm_num : (0 : ℝ) ≤ 10)]
  have hvec : normalize (subtract (⟨10, 0⟩ : Point ℝ) ⟨0, 0⟩) = ⟨1, 0⟩ := by
    unfold subtract normalize
    norm_num [hs100, Point.mk.injEq]
  have hperp : SegmentsLine.epPerpToEdge sampleTriangle Edge.BC Corner.A = ⟨0, 1⟩ := by
    unfold SegmentsLine.epPerpToEdge SegmentsLine.epEdgeDir getEdgeVertices getCornerPoint
      sampleTriangle
    dsimp only
    rw [hvec]
    dsimp only [perpendicular, subtract]
    norm_num [Point.mk.injEq]
  have halt : SegmentsLine.epAltitude sampleTriangle Edge.BC Corner.A = 8 := by
    unfold SegmentsLine.epAltitude
    rw [hperp]
    dsimp only [getEdgeVertices, getCornerPoint, sampleTriangle, subtract]
    rw [abs_of_pos (by norm_num)]
    norm_num
  have hdf : SegmentsLine.epDistFromEdge ⟨PositionMode.fromEdge, 6, 1, true⟩ sampleTriangle
      Edge.BC Corner.A = 6 := rfl
  have hint1 : lineLineIntersection (⟨5, 6⟩ : Point ℝ) ⟨6, 6⟩ ⟨5, 8⟩ ⟨0, 0⟩ =
      some ⟨25/4, 6⟩ :=
    lineLineIntersection_eq_some (q := ⟨25/4, 6⟩)
      (by rw [not_lt, le_abs]; right; norm_num) (by norm_num) (by norm_num)
  have hint2 : lineLineIntersection (⟨5, 6⟩ : Point ℝ) ⟨6, 6⟩ ⟨10, 0⟩ ⟨5, 8⟩ =
      some ⟨15/4, 6⟩ :=
    lineLineIntersection_eq_some (q := ⟨15/4, 6⟩)
      (by rw [not_lt, le_abs]; left; norm_num) (by norm_num) (by norm_num)
  have hEP : SegmentsLine.edgeParallelStep blockedCornerPattern sampleTriangle (8 / 10)
      Edge.BC Corner.A =
      some ({ start := ⟨25/4, 6⟩, stop := ⟨15/4, 6⟩, weight := 1,
              startIntersectWeight := some (8 / 10),
              endIntersectWeight := some (8 / 10) },
            some { corner := Corner.A, line := ((⟨25/4, 6⟩ : Point ℝ), ⟨15/4, 6⟩),
                   halfWidth := 1/2 }) := by
    unfold SegmentsLine.edgeParallelStep
    rw [show blockedCornerPattern.edgeParallel Edge.BC =
      some ⟨PositionMode.fromEdge, 6, 1, true⟩ from rfl]
    dsimp only
    rw [hdf, halt, if_neg (by norm_num)]
    rw [hperp]
    dsimp only [SegmentsLine.epEdgeDir, getEdgeVertices, sampleTriangle]
    rw [hvec]
    dsimp only [midpoint, add, scale]
    norm_num
    rw [hint1, hint2]
    norm_num [Point.mk.injEq, blockedCornerPattern]
  have hEPR : SegmentsLine.generateEdgeParallelSegments blockedCornerPattern sampleTriangle
      (8 / 10) =
      { lines := [{ start := ⟨25/4, 6⟩, stop := ⟨15/4, 6⟩, weight := 1,
                    startIntersectWeight := some (8 / 10),
                    endIntersectWeight := some (8 / 10) }],
        blockerInfo := [{ corner := Corner.A,
                          line := ((⟨25/4, 6⟩ : Point ℝ), ⟨15/4, 6⟩),
                          halfWidth := 1/2 }] } := by
    unfold SegmentsLine.generateEdgeParallelSegments
    rw [List.map_cons, List.map_cons, List.map_cons, List.map_nil]
    dsimp only
    rw [hEP,
      show SegmentsLine.edgeParallelStep blockedCornerPattern sampleTriangle (8 / 10)
        Edge.CA Corner.B = none from rfl,
      show SegmentsLine.edgeParallelStep blockedCornerPattern sampleTriangle (8 / 10)
        Edge.AB Corner.C = none from rfl]
    rfl
  have hs169 : Real.sqrt (256 / 9) = 16 / 3 := by
    rw [show (256 / 9 : ℝ) = (16 / 3) ^ 2 by norm_num,
      Real.sqrt_sq (by norm_num : (0 : ℝ) ≤ 16 / 3)]
  have hdir : normalize (subtract (⟨5, 8/3⟩ : Point ℝ) ⟨5, 8⟩) = ⟨0, -1⟩ := by
    unfold subtract normalize
    norm_num [hs169, Point.mk.injEq]
  have hint3 : lineLineIntersection (⟨5, 8⟩ : Point ℝ) ⟨5, 8/3⟩ ⟨25/4, 6⟩ ⟨15/4, 6⟩ =
      some ⟨5, 10⟩ :=
    lineLineIntersection_eq_some (q := ⟨5, 10⟩)
      (by rw [not_lt, le_abs]; right; norm_num) (by norm_num) (by norm_num)
  have hA : SegmentsLine.cornerToCenterStep blockedCornerPattern sampleTriangle
      [{ corner := Corner.A, line := ((⟨25/4, 6⟩ : Point ℝ), ⟨15/4, 6⟩),
         halfWidth := 1/2 }] (4 / 5) 1 Corner.A =
      some { start := ⟨5, 19/2⟩, stop := ⟨5, 8/3⟩, weight := 1,
             startIntersectWeight := some 1, endIntersectWeight := some 1 } := by
    unfold SegmentsLine.cornerToCenterStep
    rw [show blockedCornerPattern.cornerToCenter Corner.A =
      some ⟨1, some BlockedBy.edgeParallel, StartSide.center⟩ from rfl]
    dsimp only [getCornerPoint, sampleTriangle]
    rw [if_pos rfl]
    rw [show List.find? (fun b => b.corner == Corner.A)
      ([{ corner := Corner.A, line := ((⟨25/4, 6⟩ : Point ℝ), ⟨15/4, 6⟩),
          halfWidth := 1/2 }] : List SegmentsLine.BlockerInfo) =
      some { corner := Corner.A, line := ((⟨25/4, 6⟩ : Point ℝ), ⟨15/4, 6⟩),
             halfWidth := 1/2 } from rfl]
    dsimp only
    rw [hint3, hdir]
    dsimp only [add, scale]
    norm_num [Point.mk.injEq, blockedCornerPattern]
  have hCTC : SegmentsLine.generateCornerToCenterSegments blockedCornerPattern sampleTriangle
      [{ corner := Corner.A, line := ((⟨25/4, 6⟩ : Point ℝ), ⟨15/4, 6⟩),
         halfWidth := 1/2 }] (8 / 10) =
      [{ start := ⟨5, 19/2⟩, stop := ⟨5, 8/3⟩, weight := 1,
         startIntersectWeight := some 1, endIntersectWeight := some 1 }] := by
    unfold SegmentsLine.generateCornerToCenterSegments
    rw [show List.filterMap blockedCornerPattern.cornerToCenter [Corner.A, Corner.B, Corner.C] =
      [⟨1, some BlockedBy.edgeParallel, StartSide.center⟩] from rfl]
    rw [List.map_cons, List.map_nil]
    rw [show blockedCornerPattern.baseWeight = (1 : ℝ) from rfl]
    dsimp only
    norm_num [List.sum_cons, List.sum_nil]
    rw [List.filterMap_cons, hA]
    dsimp only
    rw [List.filterMap_cons,
      show SegmentsLine.cornerToCenterStep blockedCornerPattern sampleTriangle
        [{ corner := Corner.A, line := ((⟨25/4, 6⟩ : Point ℝ), ⟨15/4, 6⟩),
           halfWidth := 1/2 }] (4 / 5) 1 Corner.B = none from rfl]
    dsimp only
    rw [List.filterMap_cons,
      show SegmentsLine.cornerToCenterStep blockedCornerPattern sampleTriangle
        [{ corner := Corner.A, line := ((⟨25/4, 6⟩ : Point ℝ), ⟨15/4, 6⟩),
           halfWidth := 1/2 }] (4 / 5) 1 Corner.C = none from rfl]
    rfl
  constructor
  · unfold SegmentsLine.generatePatternSegments
    rw [show rotateTriangle sampleTriangle Rotation.r0 = sampleTriangle from rfl]
    dsimp only
    rw [hEPR]
    dsimp only
    rw [hCTC]
    rfl
  · have h1 : distance (⟨5, 19/2⟩ : Point ℝ) ⟨5, 8/3⟩ = 41 / 6 :=
      dist_eq_of_sq (by norm_num) (by norm_num)
    have h2 : distance (getCornerPoint sampleTriangle Corner.A) sampleTriangle.centroid =
        16 / 3 :=
      dist_eq_of_sq (by norm_num) (by norm_num [getCornerPoint, sampleTriangle])
    rw [h1, h2]
    norm_num

/-- C1: FALSIFIED on a concrete input (code bug). For the up-pointing
triangle produced by `getTriangleForCell 0 0` (apex `A = (7.5, 0)`, base
`B = (0, h)`, `C = (15, h)` with `h = triangleHeight 15`), a polygon
whose three vertices all lie strictly inside the triangle (the code's own
`pointInTriangle` test returns `true` on each) is clipped to the EMPTY
list by `clipPolygonToTriangle`, not returned unchanged: the clip's
`lineSide ≥ 0` inside-test assumes the opposite winding, so for
up-pointing triangles the interior is on the negative side of every clip
edge. -/
theorem C1_up_pointing_interior_polygon_clipped_to_empty :
    (getTriangleForCell 0 0 15 0 0).isUpPointing = true ∧
    (∀ p ∈ ([⟨15/2, triangleHeight 15 / 2⟩, ⟨6, 3 * triangleHeight 15 / 4⟩,
        ⟨9, 3 * triangleHeight 15 / 4⟩] : List (Point ℝ)),
      pointInTriangle p (getTriangleForCell 0 0 15 0 0) = true) ∧
    clipPolygonToTriangle
      ([⟨15/2, triangleHeight 15 / 2⟩, ⟨6, 3 * triangleHeight 15 / 4⟩,
        ⟨9, 3 * triangleHeight 15 / 4⟩] : List (Point ℝ))
      (getTriangleForCell 0 0 15 0 0) = [] := by
  have ht : 0 < triangleHeight 15 := by
    unfold triangleHeight
    have h3 : 0 < Real.sqrt 3 := Real.sqrt_pos.mpr (by norm_num)
    nlinarith [h3]
  have htri : getTriangleForCell 0 0 15 0 0 =
      { A := ⟨15/2, 0⟩, B := ⟨0, triangleHeight 15⟩, C := ⟨15, triangleHeight 15⟩,
        centroid := ⟨15/2, 2/3 * triangleHeight 15⟩, isUpPointing := true } := by
    unfold getTriangleForCell
    norm_num [centroid, Point.mk.injEq, Triangle.mk.injEq]
    ring
  refine ⟨by rw [htri], ?_, ?_⟩
  · intro p hp
    rw [htri]
    simp only [List.mem_cons, List.not_mem_nil, or_false] at hp
    rcases hp with rfl | rfl | rfl <;>
      (apply pointInTriangle_of_all_neg <;> (dsimp only; nlinarith [ht]))
  · rw [htri]
    unfold clipPolygonToTriangle
    dsimp only
    rw [List.foldl_cons, if_neg (by simp), shPass_all_outside _ _ _ (by
      intro p hp
      simp only [List.mem_cons, List.not_mem_nil, or_false] at hp
      rcases hp with rfl | rfl | rfl <;> (unfold lineSide; dsimp only; nlinarith [ht]))]
    exact clipFold_nil _

end Kumiko


